import Mathlib

/-
Verification of the orbis-cc-extractor job-posting extraction library.

The development shallowly embeds the pure computational core of the
TypeScript sources:

  * src/src/extractor/util.ts            (priorityMatch, splitFirst, parseMap)
  * src/src/extractor/waterlooworks/...  (normalizers, assembler, serializer, batch controller)
  * src/src/extractor/sfu-myexperience/...  (normalizers, parsePostingData, assembler)
  * src/src/extractor/myexperience/posting/job.ts (duration normalizer)
  * src/unnamed/part_001 (serializablePosting / fromSerializablePosting, workTerm)

JavaScript strings are modelled as Lean Strings with character-list
operations; all inputs appearing in this code base are ASCII, where
String.prototype.toLowerCase agrees with the per-character Char.toLower
map used here.  JS numbers appearing in the embedded code are integers
or NaN (they are all produced by parseInt / Number on integral data),
modelled as Option Int with none standing for NaN.
-/

namespace Extractor

/-! ## JavaScript string primitives -/

/-- Lowercase a string character by character (String.prototype.toLowerCase
on the ASCII inputs of this code base). -/
def jsToLower (s : String) : String := ⟨s.data.map Char.toLower⟩

/-- Drop leading whitespace characters from a character list. -/
def dropLeadingWs : List Char → List Char
  | [] => []
  | c :: t => if c.isWhitespace then dropLeadingWs t else c :: t

/-- Trim whitespace from both ends (String.prototype.trim). -/
def jsTrim (s : String) : String :=
  ⟨dropLeadingWs (dropLeadingWs s.data.reverse).reverse⟩

/-- Decide whether pat is a prefix of the second list. -/
def charsPrefix : List Char → List Char → Bool
  | [], _ => true
  | _ :: _, [] => false
  | p :: ps, c :: cs => p == c && charsPrefix ps cs

/-- Decide whether pat occurs as a contiguous substring. -/
def charsSubstr (pat : List Char) : List Char → Bool
  | [] => charsPrefix pat []
  | c :: t => charsPrefix pat (c :: t) || charsSubstr pat t

/-- JavaScript String.prototype.includes. -/
def jsIncludes (s pat : String) : Bool := charsSubstr pat.data s.data

/-! ## Field Resolver (src/src/extractor/util.ts, priorityMatch)

The source iterates over the caller-supplied options; for a string
option it lowercases and trims it and scans the map keys in iteration
order, returning map.get(actualKey) for the first key whose lowercased
form contains the option.  A JS Map has unique keys, so map.get of the
matched key is exactly the value stored with it; the model therefore
represents the map as its (key, value) entry list in iteration order
and returns the paired value.  (The non-string-option branch of the
generic source function is dead in this code base: every call site
passes string options.) -/

/-- Scan the table in iteration order for the first key whose lowercased
form contains the already-lowercased-and-trimmed pattern. -/
def firstMatch {V : Type} (pattern : String) : List (String × V) → Option V
  | [] => none
  | (k, v) :: rest =>
    if jsIncludes (jsToLower k) pattern then some v else firstMatch pattern rest

/-- Preferentially match the keys of the map to the provided options in
the order they are provided (util.ts priorityMatch, string keys). -/
def priorityMatch {V : Type} (map : List (String × V)) : List String → Option V
  | [] => none
  | o :: os =>
    match firstMatch (jsTrim (jsToLower o)) map with
    | some v => some v
    | none => priorityMatch map os

/-- Matching test between one candidate option and one table key, as the
source performs it. -/
def keyMatches (o k : String) : Bool :=
  jsIncludes (jsToLower k) (jsTrim (jsToLower o))

theorem firstMatch_eq_none_iff {V : Type} (pattern : String)
    (table : List (String × V)) :
    firstMatch pattern table = none ↔
      ∀ kv ∈ table, jsIncludes (jsToLower kv.1) pattern = false := by
  induction table with
  | nil => simp [firstMatch]
  | cons kv rest ih =>
    obtain ⟨k, v⟩ := kv
    by_cases h : jsIncludes (jsToLower k) pattern
    · simp [firstMatch, h]
    · simp only [firstMatch, Bool.not_eq_true] at h ⊢
      simp [h, ih]

theorem firstMatch_eq_some_iff {V : Type} (pattern : String)
    (table : List (String × V)) (v : V) :
    firstMatch pattern table = some v ↔
      ∃ pre kv post, table = pre ++ kv :: post ∧
        jsIncludes (jsToLower kv.1) pattern = true ∧ kv.2 = v ∧
        ∀ kv' ∈ pre, jsIncludes (jsToLower kv'.1) pattern = false := by
  induction table with
  | nil =>
    simp only [firstMatch]
    constructor
    · intro h; exact absurd h (by simp)
    · rintro ⟨pre, kv, post, h, -⟩
      exact absurd h (by simp)
  | cons hd rest ih =>
    obtain ⟨k, w⟩ := hd
    by_cases h : jsIncludes (jsToLower k) pattern
    · have hfm : firstMatch pattern ((k, w) :: rest) = some w := by
        simp [firstMatch, h]
      rw [hfm]
      constructor
      · rintro hv
        exact ⟨[], (k, w), rest, by simp, h, Option.some.inj hv,
          by intro kv' hkv'; simp at hkv'⟩
      · rintro ⟨pre, kv, post, heq, hinc, hval, hpre⟩
        cases pre with
        | nil =>
          injection heq with h1 h2
          subst h1; subst hval; rfl
        | cons p ps =>
          injection heq with h1 h2
          subst h1
          have := hpre (k, w) (by simp)
          rw [this] at h; exact absurd h (by simp)
    · have hfm : firstMatch pattern ((k, w) :: rest) = firstMatch pattern rest := by
        simp [firstMatch, h]
      rw [hfm, ih]
      constructor
      · rintro ⟨pre, kv, post, heq, hinc, hval, hpre⟩
        refine ⟨(k, w) :: pre, kv, post, by rw [heq]; rfl, hinc, hval, ?_⟩
        intro kv' hkv'
        rcases List.mem_cons.mp hkv' with h1 | h1
        · subst h1; simpa using h
        · exact hpre kv' h1
      · rintro ⟨pre, kv, post, heq, hinc, hval, hpre⟩
        cases pre with
        | nil =>
          injection heq with h1 h2
          subst h1
          rw [hinc] at h; exact absurd rfl h
        | cons p ps =>
          injection heq with h1 h2
          subst h1
          exact ⟨ps, kv, post, h2, hinc, hval, fun kv' hkv' =>
            hpre kv' (List.mem_cons_of_mem _ hkv')⟩

theorem priorityMatch_eq_none_iff {V : Type} (table : List (String × V))
    (options : List String) :
    priorityMatch table options = none ↔
      ∀ o ∈ options, firstMatch (jsTrim (jsToLower o)) table = none := by
  induction options with
  | nil => simp [priorityMatch]
  | cons o os ih =>
    simp only [priorityMatch]
    cases h : firstMatch (jsTrim (jsToLower o)) table with
    | none => simp [h, ih]
    | some v => simp [h]

theorem priorityMatch_eq_some_iff {V : Type} (table : List (String × V))
    (options : List String) (v : V) :
    priorityMatch table options = some v ↔
      ∃ pre o post, options = pre ++ o :: post ∧
        (∀ o' ∈ pre, firstMatch (jsTrim (jsToLower o')) table = none) ∧
        firstMatch (jsTrim (jsToLower o)) table = some v := by
  induction options with
  | nil =>
    simp only [priorityMatch]
    constructor
    · intro h; exact absurd h (by simp)
    · rintro ⟨pre, o, post, h, -⟩
      exact absurd h (by simp)
  | cons o os ih =>
    simp only [priorityMatch]
    cases h : firstMatch (jsTrim (jsToLower o)) table with
    | some w =>
      show some w = some v ↔ _
      constructor
      · intro hv
        exact ⟨[], o, os, rfl, by intro o' ho'; simp at ho', by rw [h]; exact hv⟩
      · rintro ⟨pre, o', post, heq, hpre, hmatch⟩
        cases pre with
        | nil =>
          injection heq with h1 h2
          subst h1
          rw [h] at hmatch; exact hmatch
        | cons p ps =>
          injection heq with h1 h2
          subst h1
          rw [hpre o (by simp)] at h
          exact absurd h (by simp)
    | none =>
      show priorityMatch table os = some v ↔ _
      rw [ih]
      constructor
      · rintro ⟨pre, o', post, heq, hpre, hmatch⟩
        refine ⟨o :: pre, o', post, by rw [heq]; rfl, ?_, hmatch⟩
        intro o'' ho''
        rcases List.mem_cons.mp ho'' with h1 | h1
        · subst h1; exact h
        · exact hpre o'' h1
      · rintro ⟨pre, o', post, heq, hpre, hmatch⟩
        cases pre with
        | nil =>
          injection heq with h1 h2
          subst h1
          rw [h] at hmatch; exact absurd hmatch (by simp)
        | cons p ps =>
          injection heq with h1 h2
          subst h1
          exact ⟨ps, o', post, h2, fun o'' ho'' =>
            hpre o'' (List.mem_cons_of_mem _ ho''), hmatch⟩

/-- C2. Field Resolver contract: priorityMatch returns the value of the
first table key (in table iteration order) whose lowercased form contains
the lowercased, trimmed candidate as a substring, trying candidates in the
caller-supplied priority order; it returns none (undefined) rather than an
error when no candidate matches any key; and, being a pure function fully
characterized by its two arguments, it is deterministic. -/
theorem priorityMatch_contract {V : Type} (table : List (String × V))
    (options : List String) :
    (priorityMatch table options = none ↔
      ∀ o ∈ options, ∀ kv ∈ table, keyMatches o kv.1 = false) ∧
    (∀ v, priorityMatch table options = some v ↔
      ∃ pre o post, options = pre ++ o :: post ∧
        (∀ o' ∈ pre, ∀ kv ∈ table, keyMatches o' kv.1 = false) ∧
        ∃ tpre kv tpost, table = tpre ++ kv :: tpost ∧
          keyMatches o kv.1 = true ∧ kv.2 = v ∧
          ∀ kv' ∈ tpre, keyMatches o kv'.1 = false) ∧
    (∀ r₁ r₂ : Option V, priorityMatch table options = r₁ →
      priorityMatch table options = r₂ → r₁ = r₂) := by
  refine ⟨?_, fun v => ⟨?_, ?_⟩, fun r₁ r₂ h₁ h₂ => h₁ ▸ h₂⟩
  · rw [priorityMatch_eq_none_iff]
    constructor
    · intro h o ho kv hkv
      exact (firstMatch_eq_none_iff _ _).mp (h o ho) kv hkv
    · intro h o ho
      exact (firstMatch_eq_none_iff _ _).mpr (fun kv hkv => h o ho kv hkv)
  · intro h
    obtain ⟨pre, o, post, heq, hpre, hmatch⟩ :=
      (priorityMatch_eq_some_iff _ _ _).mp h
    obtain ⟨tpre, kv, tpost, hteq, hinc, hval, htpre⟩ :=
      (firstMatch_eq_some_iff _ _ _).mp hmatch
    exact ⟨pre, o, post, heq,
      fun o' ho' kv' hkv' => (firstMatch_eq_none_iff _ _).mp (hpre o' ho') kv' hkv',
      tpre, kv, tpost, hteq, hinc, hval, htpre⟩
  · rintro ⟨pre, o, post, heq, hpre, tpre, kv, tpost, hteq, hinc, hval, htpre⟩
    rw [priorityMatch_eq_some_iff]
    exact ⟨pre, o, post, heq,
      fun o' ho' => (firstMatch_eq_none_iff _ _).mpr (fun kv' hkv' => hpre o' ho' kv' hkv'),
      (firstMatch_eq_some_iff _ _ _).mpr ⟨tpre, kv, tpost, hteq, hinc, hval, htpre⟩⟩

/-- C2 witness: the contract evaluated on the documentation example of
priorityMatch, where the second candidate KEY2 matches key2 after the
first candidate matches nothing. -/
theorem priorityMatch_contract_witness :
    priorityMatch [("key1", "value1"), ("key2", "value2")] ["something", "KEY2"]
      = some "value2" := by
  have h := priorityMatch_contract [("key1", "value1"), ("key2", "value2")]
    ["something", "KEY2"]
  exact (h.2.1 "value2").mpr ⟨["something"], "KEY2", [], rfl,
    by intro o' ho' kv hkv; fin_cases ho'; fin_cases hkv <;> decide,
    [("key1", "value1")], ("key2", "value2"), [], rfl, by decide, rfl,
    by intro kv' hkv'; fin_cases hkv'; decide⟩

/-! ## JavaScript numeric and splitting primitives -/

/-- Take the maximal run of leading decimal digits. -/
def leadingDigits : List Char → List Char
  | [] => []
  | c :: t => if c.isDigit then c :: leadingDigits t else []

/-- Numeric value of a digit run. -/
def digitsVal (ds : List Char) : Nat :=
  ds.foldl (fun acc c => acc * 10 + (c.toNat - 48)) 0

/-- JavaScript parseInt in base 10: skip leading whitespace, optional
sign, take leading digits, NaN (none) when there are no digits.  (The
hexadecimal 0x prefix of parseInt never occurs on this code base's
decimal inputs and is not modelled.) -/
def jsParseInt (s : String) : Option Int :=
  let cs := dropLeadingWs s.data
  match cs with
  | '-' :: t => (leadingDigits t).rec none (fun _ _ _ => some (-(digitsVal (leadingDigits t) : Int)))
  | '+' :: t => (leadingDigits t).rec none (fun _ _ _ => some ((digitsVal (leadingDigits t) : Int)))
  | _ => (leadingDigits cs).rec none (fun _ _ _ => some ((digitsVal (leadingDigits cs) : Int)))

/-- Fueled worker for String.prototype.split with a non-empty separator;
the fuel is always at least the length of the remaining input plus one. -/
def jsSplitGo (sep : List Char) : Nat → List Char → List Char → List (List Char)
  | 0, cs, acc => [acc ++ cs]
  | fuel + 1, cs, acc =>
    if sep ≠ [] ∧ charsPrefix sep cs then
      acc :: jsSplitGo sep fuel (cs.drop sep.length) []
    else
      match cs with
      | [] => [acc]
      | c :: t => jsSplitGo sep fuel t (acc ++ [c])

/-- JavaScript String.prototype.split on a non-empty separator. -/
def jsSplit (s sep : String) : List String :=
  (jsSplitGo sep.data (s.data.length + 1) s.data []).map (fun l => ⟨l⟩)

/-! ## Enum vocabularies and text-to-enum normalizers

The status enums and parseJobPostingStatus have the same text in
waterlooworks/posting/status.ts and sfu-myexperience/posting/status.ts
and are defined once; normalizers whose rule sets differ between the
sources live in the WW / Sfu / Myexp namespaces. -/

inductive JobPostingStatus
  | APPROVED | EXPIRED | UNKNOWN
deriving DecidableEq, Repr

inductive ApplicationStatus
  | APPLIED | SHORTLISTED | NOT_INTERESTED | EXPIRED | AVAILABLE | UNKNOWN
deriving DecidableEq, Repr

inductive InterviewStatus
  | APPLIED | NOT_SELECTED | SELECTED_FOR_INTERVIEW | EMPLOYED | NONE | UNKNOWN
deriving DecidableEq, Repr

inductive WorkTermSeason
  | FALL | WINTER | SPRING | UNKNOWN
deriving DecidableEq, Repr

inductive JobLevel
  | JUNIOR | INTERMEDIATE | SENIOR
deriving DecidableEq, Repr

/-- WorkTerm of unnamed part_001: year (a JS number, possibly NaN) and
season parsed from a YYYY - Season shaped string. -/
structure WorkTerm where
  year : Option Int
  term : WorkTermSeason
deriving DecidableEq, Repr

/-- Status normalizer shared verbatim by the waterlooworks and
sfu-myexperience status.ts files. -/
def parseJobPostingStatus (status : String) : JobPostingStatus :=
  let s := jsTrim (jsToLower status)
  if jsIncludes s "approved" then .APPROVED
  else if jsIncludes s "expired" then .EXPIRED
  else .UNKNOWN

/-- Season normalizer of unnamed part_001 (workTerm.ts). -/
def parseWorkTermTerm (term : String) : WorkTermSeason :=
  let t := jsTrim (jsToLower term)
  if jsIncludes t "fall" then .FALL
  else if jsIncludes t "winter" then .WINTER
  else if jsIncludes t "spring" then .SPRING
  else .UNKNOWN

/-- parseWorkTerm of unnamed part_001: split on the dash, parseInt the
year part, season-normalize the rest. -/
def parseWorkTerm (workTerm : String) : WorkTerm :=
  let parts := jsSplit workTerm "-"
  { year := jsParseInt (parts.headD "")
    term := parseWorkTermTerm (parts.getD 1 "") }

/-- Name of a job level as listed in the job.ts sources. -/
def jobLevelName : JobLevel → String
  | .JUNIOR => "JUNIOR"
  | .INTERMEDIATE => "INTERMEDIATE"
  | .SENIOR => "SENIOR"

/-- parseJobLevels, shared verbatim by every job.ts variant: keep the
levels whose name occurs in the lowercased input. -/
def parseJobLevels (levels : String) : List JobLevel :=
  [JobLevel.JUNIOR, JobLevel.INTERMEDIATE, JobLevel.SENIOR].filter
    (fun x => jsIncludes (jsToLower levels) (jsToLower (jobLevelName x)))

/-- True for the Unicode combining marks stripped after NFD
normalization in the document normalizers.  NFD decomposition itself is
the identity on the ASCII data of this code base and is not modelled. -/
def isCombiningMark (c : Char) : Bool := 0x300 ≤ c.toNat && c.toNat ≤ 0x36f

/-- Lowercase, trim and strip combining marks, as the document
normalizers do before their substring tests. -/
def jsNormalizeStrip (s : String) : String :=
  ⟨(jsTrim (jsToLower s)).data.filter (fun c => !isCombiningMark c)⟩

namespace WW

inductive InternalStatus
  | FILLED | PARTIALLY_FILLED | EMP_RANKINGS_FINALIZED | INTERVIEW_COMPLETE
  | INTERVIEW_SELECTIONS_COMPLETE | EXPIRED_APPLICATIONS_AVAILABLE
  | OPEN_FOR_APPLICATIONS | CANCEL | UNKNOWN
deriving DecidableEq, Repr

/-- parseInternalStatus of waterlooworks/posting/status.ts. -/
def parseInternalStatus (status : String) : InternalStatus :=
  let s := jsTrim (jsToLower status)
  if jsIncludes s "filled" then .FILLED
  else if jsIncludes s "partially filled" then .PARTIALLY_FILLED
  else if jsIncludes s "rankings finalized" then .EMP_RANKINGS_FINALIZED
  else if jsIncludes s "interview complete" then .INTERVIEW_COMPLETE
  else if jsIncludes s "interview selections complete" then .INTERVIEW_SELECTIONS_COMPLETE
  else if jsIncludes s "expired" && jsIncludes s "available" then .EXPIRED_APPLICATIONS_AVAILABLE
  else if jsIncludes s "open" && jsIncludes s "applications" then .OPEN_FOR_APPLICATIONS
  else if jsIncludes s "cancel" then .CANCEL
  else .UNKNOWN

/-- parseApplicationStatus of waterlooworks/posting/status.ts. -/
def parseApplicationStatus (status : String) : ApplicationStatus :=
  let s := jsTrim (jsToLower status)
  if jsIncludes s "applied" then .APPLIED
  else if jsIncludes s "shortlisted" then .SHORTLISTED
  else if jsIncludes s "not interested" then .NOT_INTERESTED
  else if jsIncludes s "expired" then .EXPIRED
  else if jsIncludes s "available" then .AVAILABLE
  else .UNKNOWN

/-- parseInterviewStatus of waterlooworks/posting/status.ts. -/
def parseInterviewStatus (status : String) : InterviewStatus :=
  let s := jsTrim (jsToLower status)
  if jsIncludes s "applied" then .APPLIED
  else if jsIncludes s "not selected" then .NOT_SELECTED
  else if jsIncludes s "selected" && jsIncludes s "interview" then .SELECTED_FOR_INTERVIEW
  else if jsIncludes s "employed" then .EMPLOYED
  else if jsIncludes s "none" then .NONE
  else .UNKNOWN

inductive JobDuration
  | fourMonth | fourOrEightMonth | eightMonthPreferred | eightMonthRequired | UNKNOWN
deriving DecidableEq, Repr

/-- parseJobDuration of waterlooworks/posting/job.ts. -/
def parseJobDuration (duration : String) : JobDuration :=
  let d := jsTrim (jsToLower duration)
  let four := jsIncludes d "4" || jsIncludes d "four"
  let eight := jsIncludes d "8" || jsIncludes d "eight"
  if four && eight then .fourOrEightMonth
  else if four then .fourMonth
  else if eight && jsIncludes d "prefer" then .eightMonthPreferred
  else if eight && jsIncludes d "required" then .eightMonthRequired
  else .UNKNOWN

inductive ApplicationDocument
  | coverLetter | transcript | studentSummarySheet | workHistory | resume | other | UNKNOWN
deriving DecidableEq, Repr

/-- parseApplicationDocument of the waterlooworks documents module
(unnamed part_004). -/
def parseApplicationDocument (document : String) : ApplicationDocument :=
  let d := jsNormalizeStrip document
  if jsIncludes d "cover" && jsIncludes d "letter" then .coverLetter
  else if jsIncludes d "transcript" then .transcript
  else if jsIncludes d "summary" then .studentSummarySheet
  else if jsIncludes d "work" && jsIncludes d "history" then .workHistory
  else if jsIncludes d "resume" then .resume
  else if jsIncludes d "other" then .other
  else .UNKNOWN

end WW

namespace Sfu

inductive InternalStatus
  | FILLED | PARTIALLY_FILLED | FILLED_EXTERNALLY | UNFILLED
  | EMP_RANKINGS_FINALIZED | INTERVIEW_COMPLETE | INTERVIEWING_PHASE
  | INTERVIEW_SELECTIONS_COMPLETE | EXPIRED_APPLICATIONS_AVAILABLE
  | OFFER_PHASE | OPEN_FOR_APPLICATIONS | CANCEL | NOT_SET | UNKNOWN
deriving DecidableEq, Repr

/-- parseInternalStatus of sfu-myexperience/posting/status.ts. -/
def parseInternalStatus (status : String) : InternalStatus :=
  let s := jsTrim (jsToLower status)
  if jsIncludes s "part" && jsIncludes s "filled" then .PARTIALLY_FILLED
  else if jsIncludes s "filled" && jsIncludes s "externally" then .FILLED_EXTERNALLY
  else if jsIncludes s "unfilled" then .UNFILLED
  else if jsIncludes s "filled" then .FILLED
  else if jsIncludes s "rankings finalized" then .EMP_RANKINGS_FINALIZED
  else if jsIncludes s "interview complete" then .INTERVIEW_COMPLETE
  else if jsIncludes s "interview selections complete" then .INTERVIEW_SELECTIONS_COMPLETE
  else if jsIncludes s "interview" && jsIncludes s "phase" then .INTERVIEWING_PHASE
  else if jsIncludes s "expired" && jsIncludes s "available" then .EXPIRED_APPLICATIONS_AVAILABLE
  else if jsIncludes s "open" && jsIncludes s "applications" then .OPEN_FOR_APPLICATIONS
  else if jsIncludes s "offer" && jsIncludes s "phase" then .OFFER_PHASE
  else if jsIncludes s "cancel" then .CANCEL
  else if jsIncludes s "not set" then .NOT_SET
  else .UNKNOWN

/-- parseApplicationStatus of sfu-myexperience/posting/status.ts. -/
def parseApplicationStatus (status : String) : ApplicationStatus :=
  let s := jsTrim (jsToLower status)
  if jsIncludes s "application submitted" then .APPLIED
  else if jsIncludes s "shortlisted" then .SHORTLISTED
  else if jsIncludes s "not interested" then .NOT_INTERESTED
  else if jsIncludes s "expired" then .EXPIRED
  else if jsIncludes s "available" then .AVAILABLE
  else .UNKNOWN

/-- parseInterviewStatus of sfu-myexperience/posting/status.ts. -/
def parseInterviewStatus (status : String) : InterviewStatus :=
  let s := jsTrim (jsToLower status)
  if jsIncludes s "application submitted" then .APPLIED
  else if jsIncludes s "not selected" then .NOT_SELECTED
  else if jsIncludes s "selected" && jsIncludes s "interview" then .SELECTED_FOR_INTERVIEW
  else if jsIncludes s "employed" then .EMPLOYED
  else if jsIncludes s "none" then .NONE
  else .UNKNOWN

inductive JobDuration
  | fourMonth | fourOrEightMonth | eightMonth | eightOrTwelveMonth | twelveMonth | UNKNOWN
deriving DecidableEq, Repr

/-- parseJobDuration of sfu-myexperience/posting/job.ts.  The source
also computes a twoWork flag (duration.includes of the text 2 work) but
never reads it; the flag is reproduced here for fidelity. -/
def parseJobDuration (duration : String) : JobDuration :=
  let d := jsTrim (jsToLower duration)
  let _twoWork := jsIncludes d "2 work"
  let four := jsIncludes d "4" || jsIncludes d "four"
  let eight := jsIncludes d "8" || jsIncludes d "eight"
  let twelve := jsIncludes d "12" || jsIncludes d "twelve"
  if four then
    if eight then .fourOrEightMonth else .fourMonth
  else if eight then
    if twelve then .eightOrTwelveMonth else .eightMonth
  else if twelve then .twelveMonth
  else .UNKNOWN

inductive ApplicationDocument
  | coverLetter | gradeReport | resume | studentInformationSummary
  | transcript | workHistory | other | UNKNOWN
deriving DecidableEq, Repr

/-- parseApplicationDocument of sfu-myexperience/posting/documents.ts.
Note the SIS and Transcript tests use capitalized patterns against the
lowercased input, so those two branches can never fire; they are
reproduced faithfully. -/
def parseApplicationDocument (document : String) : ApplicationDocument :=
  let d := jsNormalizeStrip document
  if jsIncludes d "cover" && jsIncludes d "letter" then .coverLetter
  else if jsIncludes d "grade" && jsIncludes d "report" then .gradeReport
  else if jsIncludes d "work" && jsIncludes d "history" then .workHistory
  else if jsIncludes d "SIS" then .studentInformationSummary
  else if jsIncludes d "Transcript" then .transcript
  else if jsIncludes d "resume" then .resume
  else if jsIncludes d "other" then .other
  else .UNKNOWN

end Sfu

namespace Myexp

inductive JobDuration
  | fourMonth | fourOrEightMonth | eightMonthPreferred | eightMonthRequired
  | eightOrTwelveMonth | twelveMonth | twoWorkTermPreferred | twoWorkTermRequired | UNKNOWN
deriving DecidableEq, Repr

/-- parseJobDuration of myexperience/posting/job.ts. -/
def parseJobDuration (duration : String) : JobDuration :=
  let d := jsTrim (jsToLower duration)
  let twoWork := jsIncludes d "2 work"
  let four := jsIncludes d "4" || jsIncludes d "four"
  let eight := jsIncludes d "8" || jsIncludes d "eight"
  let twelve := jsIncludes d "12" || jsIncludes d "twelve"
  if four && eight then .fourOrEightMonth
  else if four then .fourMonth
  else if eight && twelve then .eightOrTwelveMonth
  else if twelve then .twelveMonth
  else if eight && jsIncludes d "prefer" then .eightMonthPreferred
  else if eight then .eightMonthRequired
  else if twoWork && jsIncludes d "preferred" then .twoWorkTermPreferred
  else if twoWork && jsIncludes d "required" then .twoWorkTermRequired
  else .UNKNOWN

end Myexp

/-- C4. Every text-to-enum normalizer (posting status, internal status,
application status, interview status, job duration, work-term season,
application document) is a total function on strings — in this embedding
each is a Lean function into its enum, with no failure path in the
source (every branch is a pure substring test and the final else returns
UNKNOWN) — and any input matched by no substring rule, the empty string
included, yields the terminal UNKNOWN member. -/
theorem normalizers_total_unknown_fallback :
    (∀ s, jsIncludes (jsTrim (jsToLower s)) "approved" = false →
      jsIncludes (jsTrim (jsToLower s)) "expired" = false →
      parseJobPostingStatus s = .UNKNOWN) ∧
    parseJobPostingStatus "" = .UNKNOWN ∧
    (∀ s, jsIncludes (jsTrim (jsToLower s)) "filled" = false →
      jsIncludes (jsTrim (jsToLower s)) "partially filled" = false →
      jsIncludes (jsTrim (jsToLower s)) "rankings finalized" = false →
      jsIncludes (jsTrim (jsToLower s)) "interview complete" = false →
      jsIncludes (jsTrim (jsToLower s)) "interview selections complete" = false →
      (jsIncludes (jsTrim (jsToLower s)) "expired" &&
        jsIncludes (jsTrim (jsToLower s)) "available") = false →
      (jsIncludes (jsTrim (jsToLower s)) "open" &&
        jsIncludes (jsTrim (jsToLower s)) "applications") = false →
      jsIncludes (jsTrim (jsToLower s)) "cancel" = false →
      WW.parseInternalStatus s = .UNKNOWN) ∧
    WW.parseInternalStatus "" = .UNKNOWN ∧
    (∀ s, jsIncludes (jsTrim (jsToLower s)) "applied" = false →
      jsIncludes (jsTrim (jsToLower s)) "shortlisted" = false →
      jsIncludes (jsTrim (jsToLower s)) "not interested" = false →
      jsIncludes (jsTrim (jsToLower s)) "expired" = false →
      jsIncludes (jsTrim (jsToLower s)) "available" = false →
      WW.parseApplicationStatus s = .UNKNOWN) ∧
    WW.parseApplicationStatus "" = .UNKNOWN ∧
    (∀ s, jsIncludes (jsTrim (jsToLower s)) "applied" = false →
      jsIncludes (jsTrim (jsToLower s)) "not selected" = false →
      (jsIncludes (jsTrim (jsToLower s)) "selected" &&
        jsIncludes (jsTrim (jsToLower s)) "interview") = false →
      jsIncludes (jsTrim (jsToLower s)) "employed" = false →
      jsIncludes (jsTrim (jsToLower s)) "none" = false →
      WW.parseInterviewStatus s = .UNKNOWN) ∧
    WW.parseInterviewStatus "" = .UNKNOWN ∧
    (∀ s, (jsIncludes (jsTrim (jsToLower s)) "4" ||
        jsIncludes (jsTrim (jsToLower s)) "four") = false →
      (jsIncludes (jsTrim (jsToLower s)) "8" ||
        jsIncludes (jsTrim (jsToLower s)) "eight") = false →
      WW.parseJobDuration s = .UNKNOWN) ∧
    WW.parseJobDuration "" = .UNKNOWN ∧
    (∀ s, jsIncludes (jsTrim (jsToLower s)) "fall" = false →
      jsIncludes (jsTrim (jsToLower s)) "winter" = false →
      jsIncludes (jsTrim (jsToLower s)) "spring" = false →
      parseWorkTermTerm s = .UNKNOWN) ∧
    parseWorkTermTerm "" = .UNKNOWN ∧
    (∀ s, (jsIncludes (jsNormalizeStrip s) "cover" &&
        jsIncludes (jsNormalizeStrip s) "letter") = false →
      (jsIncludes (jsNormalizeStrip s) "grade" &&
        jsIncludes (jsNormalizeStrip s) "report") = false →
      (jsIncludes (jsNormalizeStrip s) "work" &&
        jsIncludes (jsNormalizeStrip s) "history") = false →
      jsIncludes (jsNormalizeStrip s) "SIS" = false →
      jsIncludes (jsNormalizeStrip s) "Transcript" = false →
      jsIncludes (jsNormalizeStrip s) "resume" = false →
      jsIncludes (jsNormalizeStrip s) "other" = false →
      Sfu.parseApplicationDocument s = .UNKNOWN) ∧
    Sfu.parseApplicationDocument "" = .UNKNOWN := by
  refine ⟨?_, by decide, ?_, by decide, ?_, by decide, ?_, by decide,
    ?_, by decide, ?_, by decide, ?_, by decide⟩
  · intro s h1 h2; simp [parseJobPostingStatus, h1, h2]
  · intro s h1 h2 h3 h4 h5 h6 h7 h8
    simp [WW.parseInternalStatus, h1, h2, h3, h4, h5, h6, h7, h8]
  · intro s h1 h2 h3 h4 h5
    simp [WW.parseApplicationStatus, h1, h2, h3, h4, h5]
  · intro s h1 h2 h3 h4 h5
    simp [WW.parseInterviewStatus, h1, h2, h3, h4, h5]
  · intro s h1 h2; simp [WW.parseJobDuration, h1, h2]
  · intro s h1 h2 h3; simp [parseWorkTermTerm, h1, h2, h3]
  · intro s h1 h2 h3 h4 h5 h6 h7
    simp [Sfu.parseApplicationDocument, h1, h2, h3, h4, h5, h6, h7]

/-- C4 witness: the fallback clauses of the normalizer theorem applied
at a concrete unmatched input. -/
theorem normalizers_total_unknown_fallback_witness :
    WW.parseInternalStatus "zzz" = .UNKNOWN ∧
    Sfu.parseApplicationDocument "zzz" = .UNKNOWN ∧
    WW.parseJobDuration "zzz" = .UNKNOWN := by
  have h := normalizers_total_unknown_fallback
  exact ⟨h.2.2.1 "zzz" (by decide) (by decide) (by decide) (by decide)
      (by decide) (by decide) (by decide) (by decide),
    h.2.2.2.2.2.2.2.2.2.2.2.2.1 "zzz" (by decide) (by decide) (by decide)
      (by decide) (by decide) (by decide) (by decide),
    h.2.2.2.2.2.2.2.2.1 "zzz" (by decide) (by decide)⟩

/-- C5 counterexample: an input containing both the 2 work term phrasing
and the numeric month token 8 resolves, in the myexperience duration
normalizer, to the month-count variant 8 month required, not to a
2-work-term commitment variant as the claim states. -/
theorem duration_twoWork_counterexample :
    Myexp.parseJobDuration "2 work term commitment required, 8 months"
        = Myexp.JobDuration.eightMonthRequired ∧
    Myexp.parseJobDuration "2 work term commitment required, 8 months"
        ≠ Myexp.JobDuration.twoWorkTermPreferred ∧
    Myexp.parseJobDuration "2 work term commitment required, 8 months"
        ≠ Myexp.JobDuration.twoWorkTermRequired := by
  refine ⟨by decide, by decide, by decide⟩

/-- C5 amended: the numeric month tokens are checked before the 2 work
term phrasing.  In the myexperience normalizer a 2-work-term commitment
variant is returned only when no month token (4/four, 8/eight,
12/twelve) occurs in the input, so an input containing both phrasings
resolves to a month-count variant; the sfu-myexperience normalizer
never consults the phrasing at all (its twoWork flag is dead) and maps
an input with the phrasing alone to UNKNOWN. -/
theorem duration_months_precede_twoWork :
    (∀ s, (Myexp.parseJobDuration s = .twoWorkTermPreferred ∨
        Myexp.parseJobDuration s = .twoWorkTermRequired) →
      (jsIncludes (jsTrim (jsToLower s)) "4" ||
        jsIncludes (jsTrim (jsToLower s)) "four") = false ∧
      (jsIncludes (jsTrim (jsToLower s)) "8" ||
        jsIncludes (jsTrim (jsToLower s)) "eight") = false ∧
      (jsIncludes (jsTrim (jsToLower s)) "12" ||
        jsIncludes (jsTrim (jsToLower s)) "twelve") = false) ∧
    Sfu.parseJobDuration "2 work term commitment required" = .UNKNOWN ∧
    Myexp.parseJobDuration "2 work term commitment required, 8 months"
        = Myexp.JobDuration.eightMonthRequired := by
  refine ⟨?_, by decide, by decide⟩
  intro s
  simp only [Myexp.parseJobDuration]
  generalize jsIncludes (jsTrim (jsToLower s)) "4" = b4
  generalize jsIncludes (jsTrim (jsToLower s)) "four" = bfour
  generalize jsIncludes (jsTrim (jsToLower s)) "8" = b8
  generalize jsIncludes (jsTrim (jsToLower s)) "eight" = beight
  generalize jsIncludes (jsTrim (jsToLower s)) "12" = b12
  generalize jsIncludes (jsTrim (jsToLower s)) "twelve" = btwelve
  generalize jsIncludes (jsTrim (jsToLower s)) "2 work" = btw
  generalize jsIncludes (jsTrim (jsToLower s)) "preferred" = bpd
  generalize jsIncludes (jsTrim (jsToLower s)) "prefer" = bp
  generalize jsIncludes (jsTrim (jsToLower s)) "required" = br
  revert b4 bfour b8 beight b12 btwelve btw bpd bp br
  decide

/-- C5 amended witness: the theorem applied at an input that the
myexperience normalizer does send to a 2-work-term commitment variant,
showing no month token occurs in it. -/
theorem duration_months_precede_twoWork_witness :
    (jsIncludes (jsTrim (jsToLower "2 work term commitment preferred")) "8" ||
      jsIncludes (jsTrim (jsToLower "2 work term commitment preferred")) "eight") = false := by
  exact (duration_months_precede_twoWork.1 "2 work term commitment preferred"
    (Or.inl (by decide))).2.1

/-! ## splitFirst (util.ts)

The source splits on the first occurrence of the separator via the
regular expression anchored-caret (.*?) \s? sep \s? (.*) anchored-dollar
applied to the trimmed input.  The lazy first group selects the earliest
position at which the optional-whitespace-wrapped separator matches; the
dot of both groups does not match line terminators, and the two \s? are
greedy.  The scan below reproduces exactly this backtracking order. -/

/-- True for the characters the JS dot does not match. -/
def lineTerminator (c : Char) : Bool := c = '\n' || c = '\r'

/-- Attempt to match optional-whitespace, separator, optional-whitespace,
rest-of-line at the current position, returning the second capture group
on success.  The before-separator whitespace option is tried greedily
first, as the regex engine does. -/
def sepMatchAt (sep : List Char) (cs : List Char) : Option (List Char) :=
  let tailMatch : List Char → Option (List Char) := fun r =>
    match r with
    | c :: t =>
      if c.isWhitespace && t.all (fun x => !lineTerminator x) then some t
      else if (c :: t).all (fun x => !lineTerminator x) then some (c :: t)
      else none
    | [] => some []
  let direct : Option (List Char) :=
    if charsPrefix sep cs then tailMatch (cs.drop sep.length) else none
  match cs with
  | c :: t =>
    if c.isWhitespace && charsPrefix sep t then
      match tailMatch (t.drop sep.length) with
      | some g2 => some g2
      | none => direct
    else direct
  | [] => direct

/-- Scan for the earliest match position; the first capture group cannot
cross a line terminator. -/
def splitFirstGo (sep : List Char) : List Char → List Char → Option (String × String)
  | cs, pre =>
    match sepMatchAt sep cs with
    | some g2 => some (⟨pre.reverse⟩, ⟨g2⟩)
    | none =>
      match cs with
      | [] => none
      | c :: t => if lineTerminator c then none else splitFirstGo sep t (c :: pre)

/-- splitFirst of util.ts: split the trimmed string on the first
occurrence of the separator, tolerating one whitespace character on
either side of it; undefined (none) when the separator does not occur. -/
def splitFirst (s sep : String) : Option (String × String) :=
  splitFirstGo sep.data (jsTrim s).data []

/-! ## JS Map construction and parseMap (util.ts) -/

/-- Map.prototype.set: a repeated key keeps its original position but
takes the new value. -/
def jsMapSet (m : List (String × String)) (k v : String) : List (String × String) :=
  if m.any (fun p => p.1 = k) then m.map (fun p => if p.1 = k then (k, v) else p)
  else m ++ [(k, v)]

/-- Entry list of new Map(entries). -/
def jsMapOfEntries (l : List (String × String)) : List (String × String) :=
  l.foldl (fun m p => jsMapSet m p.1 p.2) []

/-- parseMap of util.ts on string keys and values: a Map instance is
returned unchanged and a well-shaped entry array is stringified into a
Map; both collapse to jsMapOfEntries here (a Map input is already a
deduplicated entry list, on which jsMapOfEntries is the identity).  Any
other shape throws Got incorrect data type parsing the field, modelled
by the none input. -/
def parseMap (entries : Option (List (String × String))) (fieldName : String) :
    Except String (List (String × String)) :=
  match entries with
  | some l => .ok (jsMapOfEntries l)
  | none => .error ("Got incorrect data type parsing " ++ fieldName)

/-- Error.prototype.toString, as observed by the catch handlers that
stringify a thrown Error into a per-record message. -/
def jsErrorToString (msg : String) : String := "Error: " ++ msg

/-! ## Field-resolution wrappers

matchTrim models the jobStringU / appStringU / companyStringU closures
(priorityMatch then trim, undefined when not found); matchTrimD models
the jobString / appString / companyString closures that default to the
UNKNOWN sentinel. -/

/-- priorityMatch then trim; none when no candidate matches. -/
def matchTrim (table : List (String × String)) (ks : List String) : Option String :=
  (priorityMatch table ks).map jsTrim

/-- matchTrim with the UNKNOWN sentinel for absent required fields. -/
def matchTrimD (table : List (String × String)) (ks : List String) : String :=
  (matchTrim table ks).getD "UNKNOWN"

/-- JS truthiness filter on an optional string: the flatMap callbacks of
the address assembly drop both undefined and the empty string. -/
def truthyOpt (o : Option String) : Option String :=
  o.bind (fun v => if v = "" then none else some v)

/-- Join a list of strings with a separator (Array.prototype.join). -/
def joinWith (sep : String) : List String → String
  | [] => ""
  | [x] => x
  | x :: xs => x ++ sep ++ joinWith sep xs

/-- Prefix test on strings (String.prototype.startsWith). -/
def jsStartsWith (s pre : String) : Bool := charsPrefix pre.data s.data

/-- Drop the first n characters (String.prototype.slice with one
argument on the ASCII data of this code base). -/
def jsSliceFrom (s : String) (n : Nat) : String := ⟨s.data.drop n⟩

/-! ## Posting data model and uniform JS scalars -/

/-- JS string-or-number scalar (with none for NaN in the number case),
the type of a PostingError id when present. -/
inductive JsPrim
  | str (s : String)
  | num (n : Option Int)
deriving DecidableEq, Repr

/-- PostingError: the terminal, per-record failure record. -/
structure PostingError where
  id : Option JsPrim
  error : String
deriving DecidableEq, Repr

/-- application.parsed.status of both assemblers, computed over the
pre-lowercased tags and interaction labels and the parsed posting
status; the text of this conditional chain is identical in
waterlooworks/index.ts extractPostingDetails and
sfu-myexperience/posting/data.ts parsePostingData. -/
def computeApplicationStatus (lowerTags lowerInteractions : List String)
    (posting : JobPostingStatus) : ApplicationStatus :=
  if lowerTags.any (fun s => jsIncludes s "application submitted") then .APPLIED
  else if posting = .EXPIRED then .EXPIRED
  else if lowerTags.any (fun s => jsIncludes s "shortlisted") then .SHORTLISTED
  else if lowerInteractions.any (fun s => jsIncludes s "include") then .NOT_INTERESTED
  else if lowerInteractions.any (fun s => jsIncludes s "apply") then .AVAILABLE
  else .UNKNOWN

/-- Address list assembly shared by the assemblers: up to three address
lines, a joined city / province / postal line, and a country line. -/
def addressList (jobData : List (String × String)) : List String :=
  (["address line one", "address line two", "address line three"].filterMap
      (fun s => truthyOpt (matchTrim jobData [s]))) ++
  [joinWith ", " ([["city"], ["province / state", "province"],
      ["postal code / zip code", "postal code", "postal"]].filterMap
      (fun ks => truthyOpt (matchTrim jobData ks))),
   matchTrimD jobData ["country / region", "country"]]

/-- Targets assembly shared by the assemblers: split the targeted
degrees field on newlines, drop targeted-clusters lines, strip a leading
dash-space marker. -/
def targetsList (jobData : List (String × String)) : List String :=
  match matchTrim jobData ["targeted degrees and disciplines", "targeted degrees", "targeted"] with
  | none => []
  | some t =>
    ((jsSplit t "\n").filter (fun s => !jsIncludes (jsToLower s) "targeted clusters")).map
      (fun s => if jsStartsWith s "- " then jsTrim (jsSliceFrom s 2) else s)

namespace Sfu

structure ParsedStatus where
  posting : JobPostingStatus
  internal : InternalStatus
deriving DecidableEq, Repr

structure StatusInformation where
  data : List (String × String)
  parsed : ParsedStatus
deriving DecidableEq, Repr

structure JobCategory where
  number : Option Int
  title : String
deriving DecidableEq, Repr

structure ParsedJob where
  workTerm : WorkTerm
  type : String
  title : String
  openings : Option Int
  category : JobCategory
  level : List JobLevel
  region : String
  address : List String
  location : Option String
  duration : JobDuration
  specialRequirements : Option String
  summary : String
  responsibilities : String
  skills : String
  transportationHousing : Option String
  compensation : Option String
  targets : List String
deriving DecidableEq, Repr

structure JobInformation where
  data : List (String × String)
  parsed : ParsedJob
deriving DecidableEq, Repr

/-- Deadline text: the application.parsed.deadline Date is produced by
the external moment-timezone library from exactly this string; the
library call is outside the repository and the parsed Date is a pure
function of the recorded text. -/
structure ParsedApplication where
  deadline : String
  method : String
  requiredDocuments : List ApplicationDocument
  status : ApplicationStatus
  additionalInformation : Option String
deriving DecidableEq, Repr

structure ApplicationInformation where
  data : List (String × String)
  availableInteractions : List String
  tags : List String
  parsed : ParsedApplication
deriving DecidableEq, Repr

structure ParsedCompany where
  division : String
  organization : String
deriving DecidableEq, Repr

structure CompanyInformation where
  data : List (String × String)
  parsed : ParsedCompany
deriving DecidableEq, Repr

/-- Posting aggregate of sfu-myexperience/posting. -/
structure Posting where
  id : Option Int
  title : String
  subtitle : String
  status : StatusInformation
  job : JobInformation
  application : ApplicationInformation
  company : CompanyInformation
deriving DecidableEq, Repr

/-- Posting-or-error union returned throughout the sfu source. -/
inductive PostingResult
  | posting (p : Posting)
  | failure (e : PostingError)
deriving DecidableEq, Repr

/-- Dynamic id of a PostingErrorData wire record: string, number or null. -/
inductive JsIdIn
  | str (s : String)
  | num (n : Option Int)
  | null
deriving DecidableEq, Repr

/-- ParsablePostingData wire record (the error-null case): shapes that
parsePostingData checks dynamically are wrapped in Option, none standing
for a value of the wrong shape (non-array tags or interactions, a table
that is neither Map nor entry array); element stringification of the
source is pre-applied. -/
structure ParsableRecord where
  id : Option Int
  title : String
  subtitle : String
  availableInteractions : Option (List String)
  tags : Option (List String)
  statusData : Option (List (String × String))
  jobData : Option (List (String × String))
  applicationData : Option (List (String × String))
  companyData : Option (List (String × String))
deriving DecidableEq, Repr

/-- Wire input of parsePostingData: the union of PostingErrorData
(error a string) and ParsablePostingData (error null).  The defensive
top-of-function array check of the source throws on an array argument;
arrays are outside this union and the claims and are not modelled. -/
inductive PostingDataInput
  | errorRecord (id : JsIdIn) (error : String)
  | record (r : ParsableRecord)
deriving DecidableEq, Repr

/-- parsePostingData of sfu-myexperience/posting/data.ts.  (The
myexperience variant differs only by the additional serviceTeamData and
statsRatings fields and the preScreening flag.) -/
def parsePostingData (data : PostingDataInput) : PostingResult :=
  match data with
  | .errorRecord i e =>
    .failure { id := (match i with | .str s => some (.str s) | _ => none), error := e }
  | .record r =>
    let id := r.id
    match r.tags with
    | none => .failure { id := some (.num id), error := "Got incorrect data type for tags" }
    | some tags =>
    match r.availableInteractions with
    | none =>
      .failure { id := some (.num id)
                 error := "Got incorrect data type for availableInteractions" }
    | some availableInteractions =>
    match parseMap r.jobData "jobData" with
    | .error msg => .failure { id := some (.num id), error := jsErrorToString msg }
    | .ok jobData =>
    match parseMap r.applicationData "applicationData" with
    | .error msg => .failure { id := some (.num id), error := jsErrorToString msg }
    | .ok appData =>
    match parseMap r.statusData "statusData" with
    | .error msg => .failure { id := some (.num id), error := jsErrorToString msg }
    | .ok statusData =>
    match parseMap r.companyData "companyData" with
    | .error msg => .failure { id := some (.num id), error := jsErrorToString msg }
    | .ok companyData =>
    let lowerTags := tags.map jsToLower
    let lowerInteractions := availableInteractions.map jsToLower
    let categorySplit :=
      splitFirst (matchTrimD jobData ["job category (noc)", "job category", "category"]) " "
    let categoryNumber := (categorySplit.map Prod.fst).getD "NaN"
    let categoryTitle := (categorySplit.map Prod.snd).getD "UNKNOWN"
    let parsedStatus : ParsedStatus :=
      { posting := parseJobPostingStatus (matchTrimD statusData ["job posting status", "posting"])
        internal := parseInternalStatus (matchTrimD statusData ["internal status", "internal"]) }
    .posting {
      id := id
      title := r.title
      subtitle := r.subtitle
      status := { data := statusData, parsed := parsedStatus }
      job := {
        data := jobData
        parsed := {
          workTerm := parseWorkTerm (matchTrimD jobData ["work term", "term"])
          type := matchTrimD jobData ["job type", "type"]
          title := matchTrimD jobData ["job title", "title"]
          openings := jsParseInt
            (matchTrimD jobData ["number of job openings", "job openings", "opening"])
          category := { number := jsParseInt categoryNumber, title := categoryTitle }
          level := parseJobLevels (matchTrimD jobData ["level"])
          region := matchTrimD jobData ["region"]
          address := addressList jobData
          location := matchTrim jobData ["job location", "location"]
          duration := parseJobDuration (matchTrimD jobData ["work term duration", "duration"])
          specialRequirements :=
            matchTrim jobData ["special job requirements", "special job", "special"]
          summary := matchTrimD jobData ["job summary", "summary"]
          responsibilities := matchTrimD jobData ["job responsibilities", "responsibilities"]
          skills := matchTrimD jobData ["required skills", "skills"]
          transportationHousing :=
            matchTrim jobData ["transportation and housing", "transportation", "housing"]
          compensation := matchTrim jobData
            ["compensation and benefits information", "compensation and benefits",
             "compensation", "benefits"]
          targets := targetsList jobData } }
      application := {
        data := appData
        availableInteractions := availableInteractions
        tags := tags
        parsed := {
          deadline := matchTrimD appData ["application deadline", "deadline"]
          method := matchTrimD appData ["application method", "method"]
          requiredDocuments :=
            match matchTrim appData
              ["application documents required", "documents required", "documents"] with
            | none => []
            | some t => (jsSplit t ",").map parseApplicationDocument
          status := computeApplicationStatus lowerTags lowerInteractions parsedStatus.posting
          additionalInformation :=
            matchTrim appData ["additional application information", "additional"] } }
      company := {
        data := companyData
        parsed := {
          division := matchTrimD companyData ["division", "div"]
          organization := matchTrimD companyData ["organization", "org"] } } }

/-- Projection: the application status of a successfully parsed posting. -/
def resultApplicationStatus : PostingResult → Option ApplicationStatus
  | .posting p => some p.application.parsed.status
  | .failure _ => none

end Sfu

/-- C10. When parsePostingData deserializes a wire record whose error
field is a string, it returns PostingError with that id and error, where
the id survives only if it is a string: for every error record carrying
a numeric (or null) id the returned PostingError has id undefined. -/
theorem parsePostingData_error_branch :
    (∀ (i : Sfu.JsIdIn) (e : String),
      Sfu.parsePostingData (.errorRecord i e) =
        .failure { id := match i with | .str s => some (.str s) | _ => none,
                   error := e }) ∧
    (∀ (n : Option Int) (e : String),
      Sfu.parsePostingData (.errorRecord (.num n) e) =
        .failure { id := none, error := e }) ∧
    (∀ (s : String) (e : String),
      Sfu.parsePostingData (.errorRecord (.str s) e) =
        .failure { id := some (.str s), error := e }) :=
  ⟨fun _ _ => rfl, fun _ _ => rfl, fun _ _ => rfl⟩

namespace WW

/-! ## WaterlooWorks posting aggregate

Structures mirror the Posting interface of waterlooworks/posting
(related document of waterlooworks/index.ts).  JS floating-point numbers
inside statsRatings are carried, never computed, by the embedded code
and are modelled as Option of a rational (none for NaN); the 1-indexed
rating arrays are lists whose index 0 holds the reserved none sentinel.
The deadline Date is produced by the external moment-timezone library
from the recorded text, as in the sfu model. -/

structure ParsedStatus where
  posting : JobPostingStatus
  internal : InternalStatus
deriving DecidableEq, Repr

structure StatusInformation where
  data : List (String × String)
  parsed : ParsedStatus
deriving DecidableEq, Repr

structure JobCategory where
  number : Option Int
  title : String
deriving DecidableEq, Repr

structure ParsedJob where
  workTerm : WorkTerm
  type : String
  title : String
  openings : Option Int
  category : JobCategory
  level : List JobLevel
  region : String
  address : List String
  location : Option String
  duration : JobDuration
  specialRequirements : Option String
  summary : String
  responsibilities : String
  skills : String
  transportationHousing : Option String
  compensation : Option String
  targets : List String
deriving DecidableEq, Repr

structure JobInformation where
  data : List (String × String)
  parsed : ParsedJob
deriving DecidableEq, Repr

structure ParsedApplication where
  status : ApplicationStatus
  deadline : String
  requiredDocuments : List ApplicationDocument
  preScreening : Bool
  additionalInformation : Option String
  method : String
deriving DecidableEq, Repr

structure ApplicationInformation where
  data : List (String × String)
  availableInteractions : List String
  tags : List String
  parsed : ParsedApplication
deriving DecidableEq, Repr

structure ParsedCompany where
  organization : String
  division : String
deriving DecidableEq, Repr

structure CompanyInformation where
  data : List (String × String)
  parsed : ParsedCompany
deriving DecidableEq, Repr

structure ParsedServiceTeam where
  accountManager : String
  hiringProcessSupport : String
  workTermSupport : String
  processAdministrator : String
deriving DecidableEq, Repr

structure ServiceTeamInformation where
  data : List (String × String)
  parsed : ParsedServiceTeam
deriving DecidableEq, Repr

structure SatisfactionRating where
  rating : Option ℚ
  n : Option Int
deriving DecidableEq, Repr

/-- SatisfactionRating with the optional 1-indexed distribution array. -/
structure SatisfactionRatingDist where
  rating : Option ℚ
  n : Option Int
  distribution : Option (List (Option ℚ))
deriving DecidableEq, Repr

structure Satisfaction where
  allCoop : SatisfactionRating
  organization : SatisfactionRatingDist
  division : SatisfactionRatingDist
deriving DecidableEq, Repr

/-- Marker for the static question-list reference table: the in-memory
posting holds the RatingsQuestions table of part_000; the wire form
replaces it by the placeholder token. -/
inductive QuestionsField
  | questionList
  | placeholder
deriving DecidableEq, Repr

structure QuestionRating where
  questions : QuestionsField
  allCoop : List (Option ℚ)
  organization : Option (List (Option ℚ))
  division : Option (List (Option ℚ))
deriving DecidableEq, Repr

structure HiredStats where
  organization : List (WorkTerm × Option Int)
  division : List (WorkTerm × Option Int)
deriving DecidableEq, Repr

structure DivisionMapQ where
  division : List (String × Option ℚ)
deriving DecidableEq, Repr

structure DivisionMapZ where
  division : List (String × Option Int)
deriving DecidableEq, Repr

structure StatsRatingsParsed where
  overallRating : Option ℚ
  hired : HiredStats
  percentByFaculty : DivisionMapQ
  percentByTermNumber : DivisionMapQ
  amountByProgram : DivisionMapZ
  satisfaction : Option Satisfaction
  questionRating : Option QuestionRating
deriving DecidableEq, Repr

structure StatsRatings where
  parsed : StatsRatingsParsed
deriving DecidableEq, Repr

/-- Posting aggregate of waterlooworks/posting. -/
structure Posting where
  id : Option Int
  title : String
  subtitle : String
  status : StatusInformation
  job : JobInformation
  application : ApplicationInformation
  company : CompanyInformation
  statsRatings : Option StatsRatings
  serviceTeam : ServiceTeamInformation
deriving DecidableEq, Repr

/-- Posting-or-error union of the waterlooworks source. -/
inductive PostingResult
  | posting (p : Posting)
  | failure (e : PostingError)
deriving DecidableEq, Repr

/-! ## WaterlooWorks assembler (extractPostingDetails)

The assembler is an async method reading a live page; its embedding
takes a structure holding exactly what the page queries would return
and computes the same pure assembly.  Field-to-selector mapping:
header and subtitle are the dashboard-header h1 / h2 innerText with the
UNKNOWN - UNKNOWN fallback already applied; statusEntries are the
two-cell rows of the header status table in DOM order; tableData is the
heading-to-rows map produced by getPostingTables; tags is the tags
panel (undefined when absent); availableInteractions are the
interaction-button labels; tabContentFirstText is the text of the first
child of div.tab-content, queried for the pre-screening marker. -/

structure PageInput where
  header : String
  subtitle : String
  statusEntries : List (String × String)
  tableData : List (String × List (String × String))
  tags : Option (List String)
  availableInteractions : List String
  tabContentFirstText : Option String
deriving DecidableEq, Repr

/-- PostingCommon data extracted by extractPostingCommon. -/
structure PostingCommon where
  id : Option Int
  title : String
  subtitle : String
  status : StatusInformation
deriving DecidableEq, Repr

/-- extractPostingCommon of waterlooworks/index.ts: split the header on
the first dash into id and title, build the status map and parse it. -/
def extractPostingCommon (pg : PageInput) : PostingCommon :=
  let idTitle := (splitFirst (jsTrim pg.header) "-").getD ("NaN", "UNKNOWN")
  let statusData := jsMapOfEntries pg.statusEntries
  { id := jsParseInt idTitle.1
    title := idTitle.2
    subtitle := pg.subtitle
    status := {
      data := statusData
      parsed := {
        posting := parseJobPostingStatus (matchTrimD statusData ["job posting status", "posting"])
        internal := parseInternalStatus (matchTrimD statusData ["internal status", "internal"]) } } }

/-- extractPostingDetails of waterlooworks/index.ts.  A missing required
table (job, application, company, service team or tags) throws the
Error Extracted incomplete data from posting page, modelled as the
Except error; the statsRatings field is absent from the return type
(Omit) and is none here. -/
def extractPostingDetails (pg : PageInput) : Except String Posting :=
  let commonData := extractPostingCommon pg
  match priorityMatch pg.tableData ["job posting", "job", "posting"],
      priorityMatch pg.tableData ["application"],
      priorityMatch pg.tableData ["company"],
      priorityMatch pg.tableData ["service team", "service"], pg.tags with
  | some jobData, some appData, some companyData, some serviceTeamData, some tags =>
    let lowerTags := tags.map jsToLower
    let lowerInteractions := pg.availableInteractions.map jsToLower
    let categorySplit :=
      splitFirst (matchTrimD jobData ["job category (noc)", "job category", "category"]) " "
    let categoryNumber := (categorySplit.map Prod.fst).getD "NaN"
    let categoryTitle := (categorySplit.map Prod.snd).getD "UNKNOWN"
    .ok {
      id := commonData.id
      title := commonData.title
      subtitle := commonData.subtitle
      status := commonData.status
      job := {
        data := jobData
        parsed := {
          workTerm := parseWorkTerm (matchTrimD jobData ["work term", "term"])
          type := matchTrimD jobData ["job type", "type"]
          title := matchTrimD jobData ["job title", "title"]
          openings := jsParseInt
            (matchTrimD jobData ["number of job openings", "job openings", "opening"])
          category := { number := jsParseInt categoryNumber, title := categoryTitle }
          level := parseJobLevels (matchTrimD jobData ["level"])
          region := matchTrimD jobData ["region"]
          address := addressList jobData
          location := matchTrim jobData ["job location", "location"]
          duration := parseJobDuration (matchTrimD jobData ["work term duration", "duration"])
          specialRequirements :=
            matchTrim jobData ["special job requirements", "special job", "special"]
          summary := matchTrimD jobData ["job summary", "summary"]
          responsibilities := matchTrimD jobData ["job responsibilities", "responsibilities"]
          skills := matchTrimD jobData ["required skills", "skills"]
          transportationHousing :=
            matchTrim jobData ["transportation and housing", "transportation", "housing"]
          compensation := matchTrim jobData
            ["compensation and benefits information", "compensation and benefits",
             "compensation", "benefits"]
          targets := targetsList jobData } }
      application := {
        data := appData
        availableInteractions := pg.availableInteractions
        tags := tags
        parsed := {
          deadline := matchTrimD appData ["application deadline", "deadline"]
          method := matchTrimD appData ["application method", "method"]
          preScreening :=
            match pg.tabContentFirstText with
            | some t => jsIncludes (jsToLower t) "pre-screening"
            | none => false
          requiredDocuments :=
            match matchTrim appData
              ["application documents required", "documents required", "documents"] with
            | none => []
            | some t => (jsSplit t ",").map parseApplicationDocument
          status := computeApplicationStatus lowerTags lowerInteractions
            commonData.status.parsed.posting
          additionalInformation :=
            matchTrim appData ["additional application information", "additional"] } }
      company := {
        data := companyData
        parsed := {
          division := matchTrimD companyData ["division", "div"]
          organization := matchTrimD companyData ["organization", "org"] } }
      statsRatings := none
      serviceTeam := {
        data := serviceTeamData
        parsed := {
          accountManager := matchTrimD serviceTeamData ["am"]
          hiringProcessSupport := matchTrimD serviceTeamData ["hps"]
          workTermSupport := matchTrimD serviceTeamData ["wts"]
          processAdministrator := matchTrimD serviceTeamData ["pa"] } } }
  | _, _, _, _, _ => .error "Extracted incomplete data from posting page"

/-- Projection: the application status of successfully assembled details. -/
def detailsApplicationStatus : Except String Posting → Option ApplicationStatus
  | .ok p => some p.application.parsed.status
  | .error _ => none

/-! ## Serialization codec (unnamed part_001)

serializablePosting converts an error posting to its JSON.stringify
text (represented by the json constructor holding the stringified
record's content) and a posting to a record whose table-bearing blocks
keep only data (as an entry list) and parsed — availableInteractions
and tags are dropped — with the statsRatings maps flattened to entry
lists and the static question table replaced by the placeholder token.
The in-memory maps are already modelled as iteration-ordered entry
lists, on which the toSerializableMap spread is the identity. -/

structure SerJob where
  data : List (String × String)
  parsed : ParsedJob
deriving DecidableEq, Repr

structure SerApplication where
  data : List (String × String)
  parsed : ParsedApplication
deriving DecidableEq, Repr

structure SerCompany where
  data : List (String × String)
  parsed : ParsedCompany
deriving DecidableEq, Repr

structure SerServiceTeam where
  data : List (String × String)
  parsed : ParsedServiceTeam
deriving DecidableEq, Repr

/-- Wire questionRating: the spread of the possibly-undefined source
field with questions overwritten by the placeholder; when the source
field is undefined the wire object holds only the placeholder. -/
structure SerQuestionRating where
  questions : QuestionsField
  allCoop : Option (List (Option ℚ))
  organization : Option (List (Option ℚ))
  division : Option (List (Option ℚ))
deriving DecidableEq, Repr

structure SerStatsParsed where
  overallRating : Option ℚ
  hired : HiredStats
  percentByFaculty : DivisionMapQ
  percentByTermNumber : DivisionMapQ
  amountByProgram : DivisionMapZ
  satisfaction : Option Satisfaction
  questionRating : SerQuestionRating
deriving DecidableEq, Repr

structure SerStats where
  parsed : SerStatsParsed
deriving DecidableEq, Repr

structure SerializedPosting where
  id : Option Int
  title : String
  subtitle : String
  status : StatusInformation
  application : SerApplication
  company : SerCompany
  statsRatings : Option SerStats
  serviceTeam : SerServiceTeam
  job : SerJob
deriving DecidableEq, Repr

/-- Wire value of serializablePosting: the JSON string of an error
record, or the serializable posting record. -/
inductive Serialized
  | json (e : PostingError)
  | record (p : SerializedPosting)
deriving DecidableEq, Repr

/-- Spread of the optional questionRating with the placeholder token. -/
def serQuestionRating : Option QuestionRating → SerQuestionRating
  | none => { questions := .placeholder, allCoop := none,
              organization := none, division := none }
  | some q => { questions := .placeholder, allCoop := some q.allCoop,
                organization := q.organization, division := q.division }

/-- serializablePosting of unnamed part_001. -/
def serializablePosting : PostingResult → Serialized
  | .failure e => .json e
  | .posting p =>
    .record {
      id := p.id
      title := p.title
      subtitle := p.subtitle
      status := p.status
      application := { data := p.application.data, parsed := p.application.parsed }
      company := { data := p.company.data, parsed := p.company.parsed }
      statsRatings :=
        match p.statsRatings with
        | none => none
        | some sr => some { parsed := {
            overallRating := sr.parsed.overallRating
            hired := sr.parsed.hired
            percentByFaculty := sr.parsed.percentByFaculty
            percentByTermNumber := sr.parsed.percentByTermNumber
            amountByProgram := sr.parsed.amountByProgram
            satisfaction := sr.parsed.satisfaction
            questionRating := serQuestionRating sr.parsed.questionRating } }
      serviceTeam := { data := p.serviceTeam.data, parsed := p.serviceTeam.parsed }
      job := { data := p.job.data, parsed := p.job.parsed } }

/-- fromSerializablePosting of unnamed part_001.  The entire
implementation of the source function is commented out; its only
executable statement returns the record with id undefined and the
error string yes, ignoring the argument. -/
def fromSerializablePosting (_posting : Serialized) : PostingResult :=
  .failure { id := none, error := "yes" }

end WW

namespace Sfu

/-! ## SFU MyExperience assembler (sfu-myexperience/index.ts)

The page-content structure plays the same role as in the WW model; the
sfu posting page has no service-team table and no pre-screening check. -/

structure PageInput where
  header : String
  subtitle : String
  statusEntries : List (String × String)
  tableData : List (String × List (String × String))
  tags : Option (List String)
  availableInteractions : List String
deriving DecidableEq, Repr

/-- PostingCommon of the sfu extractor: id, title, subtitle and the raw
status map (the sfu common step parses no status). -/
structure PostingCommon where
  id : Option Int
  title : String
  subtitle : String
  statusData : List (String × String)
deriving DecidableEq, Repr

/-- extractPostingCommon of sfu-myexperience/index.ts. -/
def extractPostingCommon (pg : PageInput) : PostingCommon :=
  let idTitle := (splitFirst (jsTrim pg.header) "-").getD ("NaN", "UNKNOWN")
  { id := jsParseInt idTitle.1
    title := idTitle.2
    subtitle := pg.subtitle
    statusData := jsMapOfEntries pg.statusEntries }

/-- extractPostingDetails of sfu-myexperience/index.ts: on a missing
required table (job, application, company or tags) it returns — not
throws — the PostingError with the best-known id; otherwise it hands
the assembled record to parsePostingData. -/
def extractPostingDetails (pg : PageInput) : Except String PostingResult :=
  let commonData := extractPostingCommon pg
  match priorityMatch pg.tableData ["job posting", "job", "posting"],
      priorityMatch pg.tableData ["application"],
      priorityMatch pg.tableData ["company"], pg.tags with
  | some jobData, some appData, some companyData, some tags =>
    .ok (parsePostingData (.record {
      id := commonData.id
      title := commonData.title
      subtitle := commonData.subtitle
      availableInteractions := some pg.availableInteractions
      tags := some tags
      statusData := some commonData.statusData
      jobData := some jobData
      applicationData := some appData
      companyData := some companyData }))
  | _, _, _, _ =>
    .ok (.failure { id := some (.num commonData.id)
                    error := "Extracted incomplete data from posting page" })

/-- Projection: the application status through the sfu assembler. -/
def assembledApplicationStatus : Except String PostingResult → Option ApplicationStatus
  | .ok r => resultApplicationStatus r
  | .error _ => none

end Sfu

/-! ## Concrete inputs for the claim instances -/

/-- Wire record of a shortlisted posting whose posting status is
Expired, with interactions containing both include and apply labels. -/
def sfuShortlistedExpiredRecord : Sfu.ParsableRecord :=
  { id := some 123456
    title := "Sample Posting"
    subtitle := "Acme - Widgets"
    availableInteractions := some ["Apply to Position", "Include in Shortlist"]
    tags := some ["Shortlisted"]
    statusData := some [("Job Posting Status", "Expired"),
                        ("Internal Status", "Open for Applications")]
    jobData := some [("Job Title", "Developer"), ("Work Term", "2025 - Fall"),
                     ("Work Term Duration", "4 month work term")]
    applicationData := some [("Application Deadline", "January 10, 2025 09:00 a.m."),
                             ("Application Method", "Through Website")]
    companyData := some [("Organization", "Acme"), ("Division", "Widgets")] }

/-- WaterlooWorks posting page with tags Shortlisted and posting status
Expired, all required tables present. -/
def wwShortlistedExpiredPage : WW.PageInput :=
  { header := "123456 - Sample Posting"
    subtitle := "Acme - Widgets"
    statusEntries := [("Job Posting Status", "Expired"),
                      ("Internal Status", "Open for Applications")]
    tableData :=
      [("Job Posting Information", [("Job Title", "Developer"), ("Work Term", "2025 - Fall")]),
       ("Application Information", [("Application Deadline", "January 10, 2025 09:00 a.m.")]),
       ("Company Info", [("Organization", "Acme"), ("Division", "Widgets")]),
       ("Service Team", [("AM - Account Manager", "A Person")])]
    tags := some ["Shortlisted"]
    availableInteractions := ["Apply to Position"]
    tabContentFirstText := none }

/-- WaterlooWorks posting page whose company table is missing. -/
def wwMissingCompanyPage : WW.PageInput :=
  { header := "654321 - Broken Posting"
    subtitle := "Acme - Widgets"
    statusEntries := [("Job Posting Status", "Approved")]
    tableData :=
      [("Job Posting Information", [("Job Title", "Developer")]),
       ("Application Information", [("Application Deadline", "X")]),
       ("Service Team", [("AM", "A Person")])]
    tags := some ["New Posting"]
    availableInteractions := ["Apply to Position"]
    tabContentFirstText := none }

/-- SFU posting page whose company table is missing. -/
def sfuMissingCompanyPage : Sfu.PageInput :=
  { header := "654321 - Broken Posting"
    subtitle := "Acme - Widgets"
    statusEntries := [("Job Posting Status", "Approved")]
    tableData :=
      [("Job Posting Information", [("Job Title", "Developer")]),
       ("Application Information", [("Application Deadline", "X")])]
    tags := some ["New Posting"]
    availableInteractions := ["Apply to Position"] }

/-- Fully-populated WaterlooWorks posting, statsRatings included, used
to evaluate the serialization codec. -/
def wwSamplePosting : WW.Posting :=
  { id := some 1
    title := "T"
    subtitle := "S"
    status := { data := [("Job Posting Status", "Approved")]
                parsed := { posting := .APPROVED, internal := .UNKNOWN } }
    job := { data := [("Job Title", "Dev")]
             parsed := {
               workTerm := { year := some 2025, term := .FALL }
               type := "Co-op"
               title := "Dev"
               openings := some 1
               category := { number := some 2175, title := "Developers" }
               level := [.JUNIOR]
               region := "BC"
               address := ["X", "Y"]
               location := some "L"
               duration := .fourMonth
               specialRequirements := none
               summary := "Sum"
               responsibilities := "Resp"
               skills := "Sk"
               transportationHousing := none
               compensation := some "Pay"
               targets := ["CS"] } }
    application := { data := [("Application Deadline", "D")]
                     availableInteractions := ["Apply"]
                     tags := ["New"]
                     parsed := { status := .AVAILABLE
                                 deadline := "D"
                                 requiredDocuments := [.resume]
                                 preScreening := false
                                 additionalInformation := none
                                 method := "Site" } }
    company := { data := [("Organization", "Acme")]
                 parsed := { organization := "Acme", division := "W" } }
    statsRatings := some { parsed := {
      overallRating := some (85 / 10 : ℚ)
      hired := { organization := [({ year := some 2024, term := .FALL }, some 3)]
                 division := [] }
      percentByFaculty := { division := [("Engineering", some (1 / 2 : ℚ))] }
      percentByTermNumber := { division := [] }
      amountByProgram := { division := [("CS", some 2)] }
      satisfaction := some {
        allCoop := { rating := some (9 / 10 : ℚ), n := some 100 }
        organization := { rating := some (8 / 10 : ℚ), n := some 10
                          distribution := some [none, some (1 / 10 : ℚ)] }
        division := { rating := some (8 / 10 : ℚ), n := some 10, distribution := none } }
      questionRating := some { questions := .questionList
                               allCoop := [none, some (4 / 5 : ℚ)]
                               organization := none
                               division := some [none, some (3 / 5 : ℚ)] } } }
    serviceTeam := { data := [("AM", "P")]
                     parsed := { accountManager := "P"
                                 hiringProcessSupport := "UNKNOWN"
                                 workTermSupport := "UNKNOWN"
                                 processAdministrator := "UNKNOWN" } } }

/-- C1. Round-trip serialization fails for the WaterlooWorks codec, and
the code is at fault: fromSerializablePosting has its whole
implementation commented out and unconditionally returns the
PostingError with id undefined and error text yes, so the round trip
reconstructs nothing; the function is constant in its argument. -/
theorem fromSerializablePosting_stub :
    WW.fromSerializablePosting (WW.serializablePosting (.posting wwSamplePosting)) =
      .failure { id := none, error := "yes" } ∧
    (∀ x y : WW.Serialized,
      WW.fromSerializablePosting x = WW.fromSerializablePosting y) ∧
    (∀ p : WW.Posting,
      WW.fromSerializablePosting (WW.serializablePosting (.posting p)) ≠ .posting p) := by
  refine ⟨rfl, fun x y => rfl, fun p h => ?_⟩
  exact WW.PostingResult.noConfusion h

/-- C3. application.status is computed by the fixed priority order:
application-submitted tag, then EXPIRED posting status, then
shortlisted tag, then include button, then apply button, then UNKNOWN —
stated on the conditional chain shared by both assemblers — and, at a
concrete shortlisted-and-expired posting, both the sfu parser and the
WaterlooWorks assembler classify the record EXPIRED, not SHORTLISTED. -/
theorem applicationStatus_priority :
    (∀ (lowerTags lowerInteractions : List String) (posting : JobPostingStatus),
      (lowerTags.any (fun s => jsIncludes s "application submitted") = true →
        computeApplicationStatus lowerTags lowerInteractions posting = .APPLIED) ∧
      (lowerTags.any (fun s => jsIncludes s "application submitted") = false →
        posting = .EXPIRED →
        computeApplicationStatus lowerTags lowerInteractions posting = .EXPIRED) ∧
      (lowerTags.any (fun s => jsIncludes s "application submitted") = false →
        posting ≠ .EXPIRED →
        lowerTags.any (fun s => jsIncludes s "shortlisted") = true →
        computeApplicationStatus lowerTags lowerInteractions posting = .SHORTLISTED) ∧
      (lowerTags.any (fun s => jsIncludes s "application submitted") = false →
        posting ≠ .EXPIRED →
        lowerTags.any (fun s => jsIncludes s "shortlisted") = false →
        lowerInteractions.any (fun s => jsIncludes s "include") = true →
        computeApplicationStatus lowerTags lowerInteractions posting = .NOT_INTERESTED) ∧
      (lowerTags.any (fun s => jsIncludes s "application submitted") = false →
        posting ≠ .EXPIRED →
        lowerTags.any (fun s => jsIncludes s "shortlisted") = false →
        lowerInteractions.any (fun s => jsIncludes s "include") = false →
        lowerInteractions.any (fun s => jsIncludes s "apply") = true →
        computeApplicationStatus lowerTags lowerInteractions posting = .AVAILABLE) ∧
      (lowerTags.any (fun s => jsIncludes s "application submitted") = false →
        posting ≠ .EXPIRED →
        lowerTags.any (fun s => jsIncludes s "shortlisted") = false →
        lowerInteractions.any (fun s => jsIncludes s "include") = false →
        lowerInteractions.any (fun s => jsIncludes s "apply") = false →
        computeApplicationStatus lowerTags lowerInteractions posting = .UNKNOWN)) ∧
    Sfu.resultApplicationStatus (Sfu.parsePostingData (.record sfuShortlistedExpiredRecord))
      = some .EXPIRED ∧
    WW.detailsApplicationStatus (WW.extractPostingDetails wwShortlistedExpiredPage)
      = some .EXPIRED := by
  refine ⟨fun lowerTags lowerInteractions posting => ?_, by decide, by decide⟩
  refine ⟨fun h1 => ?_, fun h1 h2 => ?_, fun h1 h2 h3 => ?_,
    fun h1 h2 h3 h4 => ?_, fun h1 h2 h3 h4 h5 => ?_, fun h1 h2 h3 h4 h5 => ?_⟩
  · simp [computeApplicationStatus, h1]
  · simp [computeApplicationStatus, h1, h2]
  · simp [computeApplicationStatus, h1, h2, h3]
  · simp [computeApplicationStatus, h1, h2, h3, h4]
  · simp [computeApplicationStatus, h1, h2, h3, h4, h5]
  · simp [computeApplicationStatus, h1, h2, h3, h4, h5]

/-- C3 witness: the precedence chain applied to a shortlisted tag list
with an EXPIRED posting status. -/
theorem applicationStatus_priority_witness :
    computeApplicationStatus ["shortlisted"] ["apply to position"] .EXPIRED = .EXPIRED := by
  exact (applicationStatus_priority.1 ["shortlisted"] ["apply to position"] .EXPIRED).2.1
    (by decide) rfl

/-- C6 counterexample: on a posting page whose required company table is
missing, the WaterlooWorks assembler throws the incomplete-data Error
(the model's Except error); it does not return a PostingError value as
the claim states. -/
theorem missingTable_ww_counterexample :
    WW.extractPostingDetails wwMissingCompanyPage =
      .error "Extracted incomplete data from posting page" ∧
    (WW.extractPostingDetails wwMissingCompanyPage).toOption = none :=
  ⟨rfl, rfl⟩

/-- C6 amended: on a missing required table the SFU assembler returns
the PostingError carrying the best-known id and the incomplete-data
message, while the WaterlooWorks assembler throws the same message as
an Error (which the enclosing batch loop converts per record, so a
batch is still not aborted). -/
theorem missingTable_behavior :
    (∀ pg : Sfu.PageInput,
      (priorityMatch pg.tableData ["job posting", "job", "posting"] = none ∨
       priorityMatch pg.tableData ["application"] = none ∨
       priorityMatch pg.tableData ["company"] = none ∨ pg.tags = none) →
      Sfu.extractPostingDetails pg =
        .ok (.failure { id := some (.num (Sfu.extractPostingCommon pg).id)
                        error := "Extracted incomplete data from posting page" })) ∧
    (∀ pg : WW.PageInput,
      (priorityMatch pg.tableData ["job posting", "job", "posting"] = none ∨
       priorityMatch pg.tableData ["application"] = none ∨
       priorityMatch pg.tableData ["company"] = none ∨
       priorityMatch pg.tableData ["service team", "service"] = none ∨ pg.tags = none) →
      WW.extractPostingDetails pg = .error "Extracted incomplete data from posting page") := by
  constructor
  · intro pg h
    rcases hj : priorityMatch pg.tableData ["job posting", "job", "posting"] with _ | jv <;>
      rcases ha : priorityMatch pg.tableData ["application"] with _ | av <;>
      rcases hc : priorityMatch pg.tableData ["company"] with _ | cv <;>
      rcases ht : pg.tags with _ | tv <;>
      simp only [Sfu.extractPostingDetails, hj, ha, hc, ht] ;
      first
      | rfl
      | (exfalso; rw [hj, ha, hc, ht] at h; simp at h)
  · intro pg h
    rcases hj : priorityMatch pg.tableData ["job posting", "job", "posting"] with _ | jv <;>
      rcases ha : priorityMatch pg.tableData ["application"] with _ | av <;>
      rcases hc : priorityMatch pg.tableData ["company"] with _ | cv <;>
      rcases hs : priorityMatch pg.tableData ["service team", "service"] with _ | sv <;>
      rcases ht : pg.tags with _ | tv <;>
      simp only [WW.extractPostingDetails, hj, ha, hc, hs, ht] ;
      first
      | rfl
      | (exfalso; rw [hj, ha, hc, hs, ht] at h; simp at h)

/-- C6 amended witness: the SFU branch of the theorem applied to the
concrete page missing its company table. -/
theorem missingTable_behavior_witness :
    Sfu.extractPostingDetails sfuMissingCompanyPage =
      .ok (.failure { id := some (.num (Sfu.extractPostingCommon sfuMissingCompanyPage).id)
                      error := "Extracted incomplete data from posting page" }) :=
  missingTable_behavior.1 sfuMissingCompanyPage (Or.inr (Or.inr (Or.inl (by decide))))

/-! ## Batch Extraction Controller (extractPostingsData of
waterlooworks/index.ts; the sfu controller differs only in the error
strings and row-selection details)

The controller is a single async flow: per listing page it reads the
row list, throws when more than five rows have a missing or
already-seen id, then iterates the rows — a row whose truthy id is in
the seen set is skipped, every other row has its id added to the set
and its open control clicked; the popup either arrives (the extraction
promise is started, whose result is collected by Promise.all after the
loop) or the bounded poll times out and the controller pushes the
popup-timeout PostingError directly.  The seen set and result list are
mutated only from the controller flow between await points, so the
sequential recursion below preserves all orderings: per page, the
timeout errors land in row order before the page's extraction results,
which land in click order; page segments are concatenated in page
order.  The popup/extraction outcomes are supplied by an oracle indexed
by page and row position; α abstracts the assembled posting payload. -/

structure ListingRow where
  id : Option String
deriving DecidableEq, Repr

/-- Result-list entry: a posting payload or a PostingError-shaped
record (an extraction failure caught per record, or the controller's
popup-timeout error). -/
inductive RunEntry (α : Type)
  | posting (a : α)
  | failure (id : Option String) (error : String)
deriving DecidableEq, Repr

/-- Outcome of one clicked row: the popup never arrived within the
polling window, or it arrived and the extraction promise settled to the
given entry. -/
inductive RowOutcome (α : Type)
  | timeout
  | extracted (e : RunEntry α)
deriving DecidableEq, Repr

/-- Boolean timeout test on an outcome. -/
def RowOutcome.isTimeout {α : Type} : RowOutcome α → Bool
  | .timeout => true
  | .extracted _ => false

/-- Popup-timeout message pushed by the waterlooworks controller.  (The
sfu controller's message is Never got the expected popup.) -/
def wwPopupTimeoutMsg : String := "Expected a popup but never got one"

/-- Guard message thrown when a page repeats too many entries. -/
def wwRepeatedPageMsg : String :=
  "Got a page containing too many entries that have already been extracted"

/-- JS truthiness of the optional id string: undefined and the empty
string are falsy. -/
def idTruthy : Option String → Bool
  | some s => s ≠ ""
  | none => false

/-- Set.prototype.has on the seen set. -/
def hasId : List (Option String) → Option String → Bool
  | [], _ => false
  | y :: t, x => x == y || hasId t x

/-- Set.prototype.add on the seen set. -/
def setAdd (done : List (Option String)) (x : Option String) : List (Option String) :=
  if hasId done x then done else done ++ [x]

/-- Accumulated output of the row loop over one page: the final seen
set, the directly pushed timeout errors, the Promise.all results, and
the (row index, id) pairs of the rows actually processed. -/
structure RowsOut (α : Type) where
  done : List (Option String)
  errs : List (RunEntry α)
  jobs : List (RunEntry α)
  processed : List (Nat × Option String)
deriving DecidableEq, Repr

/-- Row loop of extractPostingsData over one page's rows. -/
def runRows {α : Type} (oracle : Nat → RowOutcome α) :
    Nat → List (Option String) → List ListingRow → RowsOut α
  | _, done, [] => ⟨done, [], [], []⟩
  | idx, done, r :: rs =>
    if idTruthy r.id && hasId done r.id then runRows oracle (idx + 1) done rs
    else
      let out := runRows oracle (idx + 1) (setAdd done r.id) rs
      match oracle idx with
      | .timeout =>
        ⟨out.done, .failure r.id wwPopupTimeoutMsg :: out.errs, out.jobs,
         (idx, r.id) :: out.processed⟩
      | .extracted e => ⟨out.done, out.errs, e :: out.jobs, (idx, r.id) :: out.processed⟩

/-- Count of rows with a missing or already-seen id, checked against
the fixed bound of five before the row loop. -/
def pageGuardCount (done : List (Option String)) (rows : List ListingRow) : Nat :=
  (rows.filter (fun r => !idTruthy r.id || hasId done r.id)).length

/-- One listing page of extractPostingsData: the repeat guard, the row
loop, then the page's result segment (timeout errors then Promise.all
results). -/
def runPage {α : Type} (oracle : Nat → RowOutcome α) (done : List (Option String))
    (rows : List ListingRow) :
    Except String (List (Option String) × List (RunEntry α) × List (Nat × Option String)) :=
  if pageGuardCount done rows > 5 then .error wwRepeatedPageMsg
  else
    let out := runRows oracle 0 done rows
    .ok (out.done, out.errs ++ out.jobs, out.processed)

/-- Page loop of extractPostingsData, threading the seen set across the
page transition and concatenating page segments. -/
def runPages {α : Type} (oracle : Nat → Nat → RowOutcome α) :
    Nat → List (Option String) → List (List ListingRow) →
    Except String (List (RunEntry α) × List (Nat × Option String))
  | _, _, [] => .ok ([], [])
  | pi, done, rows :: rest =>
    match runPage (oracle pi) done rows with
    | .error e => .error e
    | .ok (done', entries, processed) =>
      match runPages oracle (pi + 1) done' rest with
      | .error e => .error e
      | .ok (entries', processed') => .ok (entries ++ entries', processed ++ processed')

/-- extractPostingsData over a finite listing: the page loop runs while
pages remain and the maxPages option is not exhausted (the next-page
control exists exactly while pages remain in the given listing). -/
def runBatch {α : Type} (maxPages : Option Nat) (pages : List (List ListingRow))
    (oracle : Nat → Nat → RowOutcome α) :
    Except String (List (RunEntry α) × List (Nat × Option String)) :=
  runPages oracle 0 [] (match maxPages with | some m => pages.take m | none => pages)

theorem hasId_append_self (l : List (Option String)) (x : Option String) :
    hasId (l ++ [x]) x = true := by
  induction l with
  | nil => simp [hasId]
  | cons y t ih => simp [hasId, ih]

theorem hasId_append_left (l m : List (Option String)) (x : Option String)
    (h : hasId l x = true) : hasId (l ++ m) x = true := by
  induction l with
  | nil => simp [hasId] at h
  | cons y t ih =>
    simp only [hasId, Bool.or_eq_true] at h ⊢
    rcases h with h | h
    · exact Or.inl h
    · exact Or.inr (ih h)

theorem hasId_setAdd_self (done : List (Option String)) (x : Option String) :
    hasId (setAdd done x) x = true := by
  unfold setAdd
  by_cases h : hasId done x
  · simp [h]
  · simpa [h] using hasId_append_self done x

theorem hasId_setAdd_of (done : List (Option String)) (x y : Option String)
    (h : hasId done x = true) : hasId (setAdd done y) x = true := by
  unfold setAdd
  by_cases hy : hasId done y
  · simpa [hy]
  · simpa [hy] using hasId_append_left done [y] x h

/-- The final seen set extends the initial one. -/
theorem runRows_done_mono {α : Type} (oracle : Nat → RowOutcome α) (idx : Nat)
    (done : List (Option String)) (rows : List ListingRow) (x : Option String)
    (h : hasId done x = true) :
    hasId (runRows oracle idx done rows).done x = true := by
  induction rows generalizing idx done with
  | nil => simpa [runRows]
  | cons r rs ih =>
    by_cases hskip : (idTruthy r.id && hasId done r.id) = true
    · simpa [runRows, hskip] using ih (idx + 1) done h
    · have h' : hasId (setAdd done r.id) x = true := hasId_setAdd_of done x r.id h
      cases ho : oracle idx with
      | timeout => simpa [runRows, hskip, ho] using ih (idx + 1) (setAdd done r.id) h'
      | extracted e => simpa [runRows, hskip, ho] using ih (idx + 1) (setAdd done r.id) h'

/-- Every processed row's id is in the final seen set. -/
theorem runRows_processed_done {α : Type} (oracle : Nat → RowOutcome α) (idx : Nat)
    (done : List (Option String)) (rows : List ListingRow) (p : Nat × Option String)
    (h : p ∈ (runRows oracle idx done rows).processed) :
    hasId (runRows oracle idx done rows).done p.2 = true := by
  induction rows generalizing idx done with
  | nil => simp [runRows] at h
  | cons r rs ih =>
    by_cases hskip : (idTruthy r.id && hasId done r.id) = true
    · rw [runRows] at h ⊢
      simp only [hskip, if_pos] at h ⊢
      exact ih (idx + 1) done h
    · cases ho : oracle idx with
      | timeout =>
        simp only [runRows, hskip, if_neg, Bool.not_eq_true, ho, List.mem_cons] at h ⊢
        rcases h with h | h
        · rw [h]
          exact runRows_done_mono oracle (idx + 1) (setAdd done r.id) rs r.id
            (hasId_setAdd_self done r.id)
        · exact ih (idx + 1) (setAdd done r.id) h
      | extracted e =>
        simp only [runRows, hskip, if_neg, Bool.not_eq_true, ho, List.mem_cons] at h ⊢
        rcases h with h | h
        · rw [h]
          exact runRows_done_mono oracle (idx + 1) (setAdd done r.id) rs r.id
            (hasId_setAdd_self done r.id)
        · exact ih (idx + 1) (setAdd done r.id) h

/-- Number of processed-row records bearing a given id string. -/
def cntId (l : List (Nat × Option String)) (s : String) : Nat :=
  (l.filter (fun p => p.2 == some s)).length

theorem cntId_nil (s : String) : cntId [] s = 0 := rfl

theorem cntId_cons (p : Nat × Option String) (l : List (Nat × Option String)) (s : String) :
    cntId (p :: l) s = (if p.2 = some s then 1 else 0) + cntId l s := by
  by_cases h : p.2 = some s
  · simp [cntId, List.filter_cons, h, Nat.add_comm]
  · simp [cntId, List.filter_cons, h]

theorem cntId_append (l m : List (Nat × Option String)) (s : String) :
    cntId (l ++ m) s = cntId l s + cntId m s := by
  simp [cntId, List.filter_append]

theorem cntId_pos (l : List (Nat × Option String)) (s : String) (h : cntId l s ≠ 0) :
    ∃ p ∈ l, p.2 = some s := by
  induction l with
  | nil => simp [cntId_nil] at h
  | cons p t ih =>
    rw [cntId_cons] at h
    by_cases hp : p.2 = some s
    · exact ⟨p, List.mem_cons_self p t, hp⟩
    · simp only [hp, if_neg, if_false, Nat.zero_add] at h
      obtain ⟨q, hq, hq2⟩ := ih h
      exact ⟨q, List.mem_cons_of_mem p hq, hq2⟩

/-- A row whose id is already in the seen set is never processed again:
its id count among processed rows is zero. -/
theorem runRows_cnt_zero {α : Type} (oracle : Nat → RowOutcome α) (idx : Nat)
    (done : List (Option String)) (rows : List ListingRow) (s : String) (hs : s ≠ "")
    (h : hasId done (some s) = true) :
    cntId (runRows oracle idx done rows).processed s = 0 := by
  induction rows generalizing idx done with
  | nil => simp [runRows, cntId_nil]
  | cons r rs ih =>
    by_cases hskip : (idTruthy r.id && hasId done r.id) = true
    · rw [runRows]
      simp only [hskip, if_pos]
      exact ih (idx + 1) done h
    · have hne : r.id ≠ some s := by
        intro he
        apply hskip
        rw [he]
        simp [idTruthy, hs, h]
      have h' := hasId_setAdd_of done (some s) r.id h
      cases ho : oracle idx with
      | timeout =>
        rw [runRows]
        simp only [hskip, if_neg, Bool.not_eq_true, ho]
        rw [cntId_cons]
        simp only [hne, if_neg, if_false, Nat.zero_add]
        exact ih (idx + 1) (setAdd done r.id) h'
      | extracted e =>
        rw [runRows]
        simp only [hskip, if_neg, Bool.not_eq_true, ho]
        rw [cntId_cons]
        simp only [hne, if_neg, if_false, Nat.zero_add]
        exact ih (idx + 1) (setAdd done r.id) h'

/-- Within one page each non-empty id is processed at most once. -/
theorem runRows_cnt_le_one {α : Type} (oracle : Nat → RowOutcome α) (idx : Nat)
    (done : List (Option String)) (rows : List ListingRow) (s : String) (hs : s ≠ "") :
    cntId (runRows oracle idx done rows).processed s ≤ 1 := by
  induction rows generalizing idx done with
  | nil => simp [runRows, cntId_nil]
  | cons r rs ih =>
    by_cases hskip : (idTruthy r.id && hasId done r.id) = true
    · rw [runRows]
      simp only [hskip, if_pos]
      exact ih (idx + 1) done
    · cases ho : oracle idx with
      | timeout =>
        rw [runRows]
        simp only [hskip, if_neg, Bool.not_eq_true, ho]
        rw [cntId_cons]
        by_cases hid : r.id = some s
        · have h0 : cntId (runRows oracle (idx + 1) (setAdd done r.id) rs).processed s = 0 := by
            apply runRows_cnt_zero oracle (idx + 1) (setAdd done r.id) rs s hs
            rw [← hid]
            exact hasId_setAdd_self done r.id
          rw [hid] at h0
          simp [hid, h0]
        · simp only [hid, if_neg, if_false, Nat.zero_add]
          exact ih (idx + 1) (setAdd done r.id)
      | extracted e =>
        rw [runRows]
        simp only [hskip, if_neg, Bool.not_eq_true, ho]
        rw [cntId_cons]
        by_cases hid : r.id = some s
        · have h0 : cntId (runRows oracle (idx + 1) (setAdd done r.id) rs).processed s = 0 := by
            apply runRows_cnt_zero oracle (idx + 1) (setAdd done r.id) rs s hs
            rw [← hid]
            exact hasId_setAdd_self done r.id
          rw [hid] at h0
          simp [hid, h0]
        · simp only [hid, if_neg, if_false, Nat.zero_add]
          exact ih (idx + 1) (setAdd done r.id)

/-- Every processed row contributes exactly one result entry: a timeout
error or a Promise.all result. -/
theorem runRows_len {α : Type} (oracle : Nat → RowOutcome α) (idx : Nat)
    (done : List (Option String)) (rows : List ListingRow) :
    (runRows oracle idx done rows).errs.length + (runRows oracle idx done rows).jobs.length =
      (runRows oracle idx done rows).processed.length := by
  induction rows generalizing idx done with
  | nil => simp [runRows]
  | cons r rs ih =>
    by_cases hskip : (idTruthy r.id && hasId done r.id) = true
    · rw [runRows]
      simp only [hskip, if_pos]
      exact ih (idx + 1) done
    · cases ho : oracle idx with
      | timeout =>
        rw [runRows]
        simp only [hskip, if_neg, Bool.not_eq_true, ho, List.length_cons]
        have := ih (idx + 1) (setAdd done r.id)
        omega
      | extracted e =>
        rw [runRows]
        simp only [hskip, if_neg, Bool.not_eq_true, ho, List.length_cons]
        have := ih (idx + 1) (setAdd done r.id)
        omega

/-- The seen set and the processed-row list do not depend on the popup
and extraction outcomes. -/
theorem runRows_ctrl_indep {α β : Type} (o1 : Nat → RowOutcome α) (o2 : Nat → RowOutcome β)
    (idx : Nat) (done : List (Option String)) (rows : List ListingRow) :
    (runRows o1 idx done rows).done = (runRows o2 idx done rows).done ∧
    (runRows o1 idx done rows).processed = (runRows o2 idx done rows).processed := by
  induction rows generalizing idx done with
  | nil => simp [runRows]
  | cons r rs ih =>
    by_cases hskip : (idTruthy r.id && hasId done r.id) = true
    · rw [runRows, runRows]
      simp only [hskip, if_pos]
      exact ih (idx + 1) done
    · have h := ih (idx + 1) (setAdd done r.id)
      cases h1 : o1 idx <;> cases h2 : o2 idx <;>
        (rw [runRows, runRows]
         simp only [hskip, if_neg, Bool.not_eq_true, h1, h2]
         exact ⟨h.1, by rw [h.2]⟩)

/-- Characterization of the directly pushed errors: they are exactly
the popup-timeout errors of the timed-out processed rows, in row
order. -/
theorem runRows_errs_char {α : Type} (oracle : Nat → RowOutcome α) (idx : Nat)
    (done : List (Option String)) (rows : List ListingRow) :
    (runRows oracle idx done rows).errs =
      ((runRows oracle idx done rows).processed.filter
        (fun p => (oracle p.1).isTimeout)).map
        (fun p => RunEntry.failure p.2 wwPopupTimeoutMsg) := by
  induction rows generalizing idx done with
  | nil => simp [runRows]
  | cons r rs ih =>
    by_cases hskip : (idTruthy r.id && hasId done r.id) = true
    · rw [runRows]
      simp only [hskip, if_pos]
      exact ih (idx + 1) done
    · cases ho : oracle idx with
      | timeout =>
        rw [runRows]
        simp only [hskip, if_neg, Bool.not_eq_true, ho]
        rw [ih (idx + 1) (setAdd done r.id)]
        simp [List.filter_cons, ho, RowOutcome.isTimeout]
      | extracted e =>
        rw [runRows]
        simp only [hskip, if_neg, Bool.not_eq_true, ho]
        rw [ih (idx + 1) (setAdd done r.id)]
        simp [List.filter_cons, ho, RowOutcome.isTimeout]

theorem runPage_ok {α : Type} (oracle : Nat → RowOutcome α) (done : List (Option String))
    (rows : List ListingRow)
    (res : List (Option String) × List (RunEntry α) × List (Nat × Option String))
    (h : runPage oracle done rows = .ok res) :
    pageGuardCount done rows ≤ 5 ∧
    res = ((runRows oracle 0 done rows).done,
           (runRows oracle 0 done rows).errs ++ (runRows oracle 0 done rows).jobs,
           (runRows oracle 0 done rows).processed) := by
  unfold runPage at h
  by_cases hg : pageGuardCount done rows > 5
  · simp [hg] at h
  · simp only [hg, if_neg, if_false, not_false_eq_true] at h
    exact ⟨by omega, (Except.ok.inj h).symm⟩

theorem runPages_cnt {α : Type} (oracle : Nat → Nat → RowOutcome α) (pi : Nat)
    (done : List (Option String)) (pages : List (List ListingRow))
    (res : List (RunEntry α) × List (Nat × Option String)) (s : String) (hs : s ≠ "")
    (h : runPages oracle pi done pages = .ok res) :
    (hasId done (some s) = true → cntId res.2 s = 0) ∧ cntId res.2 s ≤ 1 := by
  induction pages generalizing pi done res with
  | nil =>
    rw [runPages] at h
    obtain rfl := Except.ok.inj h
    simp [cntId_nil]
  | cons rows rest ih =>
    rw [runPages] at h
    split at h
    · exact absurd h (by simp)
    next done' entries processed hp =>
      split at h
      · exact absurd h (by simp)
      next entries' processed' hr =>
        obtain rfl := Except.ok.inj h
        obtain ⟨-, htri⟩ := runPage_ok (oracle pi) done rows _ hp
        injection htri with h1 h23
        injection h23 with h2 h3
        subst h1; subst h2; subst h3
        have ihr := ih (pi + 1) _ (entries', processed') hr
        dsimp only at ihr
        constructor
        · intro hd
          simp only [cntId_append]
          have hz := runRows_cnt_zero (oracle pi) 0 done rows s hs hd
          have hz' : cntId processed' s = 0 :=
            ihr.1 (runRows_done_mono (oracle pi) 0 done rows (some s) hd)
          omega
        · simp only [cntId_append]
          by_cases hdone : hasId (runRows (oracle pi) 0 done rows).done (some s) = true
          · have hz' : cntId processed' s = 0 := ihr.1 hdone
            have hle := runRows_cnt_le_one (oracle pi) 0 done rows s hs
            omega
          · have hz : cntId (runRows (oracle pi) 0 done rows).processed s = 0 := by
              by_contra hne
              obtain ⟨p, hpmem, hp2⟩ := cntId_pos _ s hne
              apply hdone
              have := runRows_processed_done (oracle pi) 0 done rows p hpmem
              rw [hp2] at this
              exact this
            have hle' := ihr.2
            omega

theorem runPages_len {α : Type} (oracle : Nat → Nat → RowOutcome α) (pi : Nat)
    (done : List (Option String)) (pages : List (List ListingRow))
    (res : List (RunEntry α) × List (Nat × Option String))
    (h : runPages oracle pi done pages = .ok res) :
    res.1.length = res.2.length := by
  induction pages generalizing pi done res with
  | nil =>
    rw [runPages] at h
    obtain rfl := Except.ok.inj h
    rfl
  | cons rows rest ih =>
    rw [runPages] at h
    split at h
    · exact absurd h (by simp)
    next done' entries processed hp =>
      split at h
      · exact absurd h (by simp)
      next entries' processed' hr =>
        obtain rfl := Except.ok.inj h
        obtain ⟨-, htri⟩ := runPage_ok (oracle pi) done rows _ hp
        injection htri with h1 h23
        injection h23 with h2 h3
        subst h1; subst h2; subst h3
        have hlen := runRows_len (oracle pi) 0 done rows
        have ihr := ih (pi + 1) _ (entries', processed') hr
        dsimp only at ihr
        simp only [List.length_append]
        omega

theorem runPages_ctrl_indep {α β : Type} (o1 : Nat → Nat → RowOutcome α)
    (o2 : Nat → Nat → RowOutcome β) (pi : Nat) (done : List (Option String))
    (pages : List (List ListingRow)) :
    (runPages o1 pi done pages).map Prod.snd = (runPages o2 pi done pages).map Prod.snd := by
  induction pages generalizing pi done with
  | nil => rfl
  | cons rows rest ih =>
    rw [runPages, runPages]
    obtain ⟨hdone, hproc⟩ := runRows_ctrl_indep (o1 pi) (o2 pi) 0 done rows
    unfold runPage
    by_cases hg : pageGuardCount done rows > 5
    · simp only [hg, if_pos]
      rfl
    · simp only [hg, if_neg, if_false, not_false_eq_true]
      rw [hdone, hproc]
      have ihr := ih (pi + 1) (runRows (o2 pi) 0 done rows).done
      cases h1 : runPages o1 (pi + 1) (runRows (o2 pi) 0 done rows).done rest with
      | error e1 =>
        cases h2 : runPages o2 (pi + 1) (runRows (o2 pi) 0 done rows).done rest with
        | error e2 =>
          rw [h1, h2] at ihr
          simp only [Except.map] at ihr
          obtain rfl := Except.error.inj ihr
          rfl
        | ok res2 =>
          rw [h1, h2] at ihr
          exact absurd ihr (by simp [Except.map])
      | ok res1 =>
        cases h2 : runPages o2 (pi + 1) (runRows (o2 pi) 0 done rows).done rest with
        | error e2 =>
          rw [h1, h2] at ihr
          exact absurd ihr (by simp [Except.map])
        | ok res2 =>
          rw [h1, h2] at ihr
          simp only [Except.map] at ihr
          obtain hsnd := Except.ok.inj ihr
          simp only [Except.map]
          rw [hsnd]

/-- Synthetic two-page listing of twelve rows, the id 6 appearing on
both pages. -/
def twoPageListing : List (List ListingRow) :=
  [[⟨some "1"⟩, ⟨some "2"⟩, ⟨some "3"⟩, ⟨some "4"⟩, ⟨some "5"⟩, ⟨some "6"⟩],
   [⟨some "6"⟩, ⟨some "7"⟩, ⟨some "8"⟩, ⟨some "9"⟩, ⟨some "10"⟩, ⟨some "11"⟩]]

/-- Oracle under which every clicked row yields a successful posting. -/
def allPostingsOracle : Nat → Nat → RowOutcome Unit :=
  fun _ _ => .extracted (.posting ())

/-- Processed rows of the synthetic run: eleven rows, the duplicate id
6 processed only on the first page. -/
def twoPageProcessed : List (Nat × Option String) :=
  [(0, some "1"), (1, some "2"), (2, some "3"), (3, some "4"), (4, some "5"), (5, some "6"),
   (1, some "7"), (2, some "8"), (3, some "9"), (4, some "10"), (5, some "11")]

/-- C7. Batch deduplication: during one extractPostingsData run each
non-empty record id is processed at most once — once an id enters the
seen set every later row bearing it, also on a later listing page, is
skipped — every processed row contributes exactly one result entry, and
on the synthetic 12-row, 2-page listing with the id 6 on both pages
that id is extracted exactly once, giving eleven entries. -/
theorem batch_dedup :
    (∀ (α : Type) (maxPages : Option Nat) (pages : List (List ListingRow))
        (oracle : Nat → Nat → RowOutcome α)
        (res : List (RunEntry α) × List (Nat × Option String)) (s : String),
      s ≠ "" → runBatch maxPages pages oracle = .ok res → cntId res.2 s ≤ 1) ∧
    (∀ (α : Type) (maxPages : Option Nat) (pages : List (List ListingRow))
        (oracle : Nat → Nat → RowOutcome α)
        (res : List (RunEntry α) × List (Nat × Option String)),
      runBatch maxPages pages oracle = .ok res → res.1.length = res.2.length) ∧
    runBatch none twoPageListing allPostingsOracle =
      .ok (List.replicate 11 (RunEntry.posting ()), twoPageProcessed) ∧
    cntId twoPageProcessed "6" = 1 ∧ twoPageProcessed.length = 11 := by
  refine ⟨?_, ?_, rfl, by decide, by decide⟩
  · intro α maxPages pages oracle res s hs h
    unfold runBatch at h
    exact (runPages_cnt oracle 0 [] _ res s hs h).2
  · intro α maxPages pages oracle res h
    unfold runBatch at h
    exact runPages_len oracle 0 [] _ res h

/-- C7 witness: the dedup bound applied to the synthetic run. -/
theorem batch_dedup_witness : cntId twoPageProcessed "6" ≤ 1 :=
  batch_dedup.1 Unit none twoPageListing allPostingsOracle
    (List.replicate 11 (RunEntry.posting ()), twoPageProcessed) "6" (by decide)
    batch_dedup.2.2.1

/-- C9. Popup-timeout recovery: the set of rows the controller
processes and whether the batch aborts are independent of the popup and
extraction outcomes, so a timed-out row never derails the rest of the
batch; the directly pushed errors of a page are exactly the
popup-timeout PostingErrors of its timed-out rows in row order; and
every processed row whose popup never arrives within the polling window
contributes its timeout PostingError to the page's result segment. -/
theorem popup_timeout_recovery :
    (∀ (α β : Type) (maxPages : Option Nat) (pages : List (List ListingRow))
        (o1 : Nat → Nat → RowOutcome α) (o2 : Nat → Nat → RowOutcome β),
      (runBatch maxPages pages o1).map Prod.snd =
        (runBatch maxPages pages o2).map Prod.snd) ∧
    (∀ (α : Type) (oracle : Nat → RowOutcome α) (idx : Nat)
        (done : List (Option String)) (rows : List ListingRow),
      (runRows oracle idx done rows).errs =
        ((runRows oracle idx done rows).processed.filter
          (fun p => (oracle p.1).isTimeout)).map
          (fun p => RunEntry.failure p.2 wwPopupTimeoutMsg)) ∧
    (∀ (α : Type) (oracle : Nat → RowOutcome α) (done : List (Option String))
        (rows : List ListingRow)
        (res : List (Option String) × List (RunEntry α) × List (Nat × Option String)),
      runPage oracle done rows = .ok res →
      ∀ p ∈ (runRows oracle 0 done rows).processed, (oracle p.1).isTimeout = true →
        RunEntry.failure p.2 wwPopupTimeoutMsg ∈ res.2.1) := by
  refine ⟨?_, ?_, ?_⟩
  · intro α β maxPages pages o1 o2
    unfold runBatch
    exact runPages_ctrl_indep o1 o2 0 [] _
  · intro α oracle idx done rows
    exact runRows_errs_char oracle idx done rows
  · intro α oracle done rows res h p hp ht
    obtain ⟨-, rfl⟩ := runPage_ok oracle done rows res h
    apply List.mem_append_left
    rw [runRows_errs_char oracle 0 done rows]
    exact List.mem_map_of_mem _ (List.mem_filter.mpr ⟨hp, by simp [ht]⟩)

/-- C9 witness: a single-row page whose popup times out yields exactly
its popup-timeout PostingError in the page's result segment. -/
theorem popup_timeout_recovery_witness :
    RunEntry.failure (α := Unit) (some "9") wwPopupTimeoutMsg ∈
      [RunEntry.failure (α := Unit) (some "9") wwPopupTimeoutMsg] :=
  popup_timeout_recovery.2.2 Unit (fun _ => .timeout) [] [⟨some "9"⟩]
    ([some "9"], [RunEntry.failure (some "9") wwPopupTimeoutMsg], [(0, some "9")])
    rfl (0, some "9") (by decide) rfl

/-! ## Bounded-concurrency discipline (C8)

In extractPostingsData the counter nPages is incremented when the
controller claims the awaited popup page for a row and decremented by
the extraction promise's finally handler.  Before claiming, the
controller polls (delay 250) while options.maxConcurrency is truthy
and nPages exceeds it, so the claim step is reachable exactly when the
bound is unset, set to the falsy 0, or the count is at most the bound;
between poll exit and the claim the count can only decrease (only
finally handlers run).  A run's concurrency behaviour is abstracted as
its sequence of claim and finish events in controller order, with
validFrom checking each event's guard against the running counter. -/

inductive SlotEvent
  | claim
  | finish
deriving DecidableEq, Repr

/-- Effect of one event on the open-page counter. -/
def slotStep (n : Nat) : SlotEvent → Nat
  | .claim => n + 1
  | .finish => n - 1

/-- Counter value after a trace, starting from n open pages. -/
def nPagesFrom (n : Nat) (tr : List SlotEvent) : Nat := tr.foldl slotStep n

/-- Counter value after a trace of a fresh run. -/
def nPagesAfter (tr : List SlotEvent) : Nat := nPagesFrom 0 tr

/-- Guard of the claim step: maxConcurrency unset, the falsy 0, or the
counter at most the bound (the poll loop waits only while the counter
exceeds it). -/
def claimAllowed (m : Option Nat) (n : Nat) : Bool :=
  match m with
  | none => true
  | some mm => mm == 0 || decide (n ≤ mm)

/-- Validity of an event trace from a given counter value: every claim
satisfies its guard, every finish closes an open page. -/
def validFrom (m : Option Nat) : Nat → List SlotEvent → Bool
  | _, [] => true
  | n, SlotEvent.claim :: tr => claimAllowed m n && validFrom m (n + 1) tr
  | n, SlotEvent.finish :: tr => decide (1 ≤ n) && validFrom m (n - 1) tr

/-- Validity of a whole run's trace. -/
def validTrace (m : Option Nat) (tr : List SlotEvent) : Bool := validFrom m 0 tr

theorem validFrom_take_bound (m : Nat) (hm : 1 ≤ m) (tr : List SlotEvent) :
    ∀ (n : Nat), validFrom (some m) n tr = true → n ≤ m + 1 →
      ∀ k, nPagesFrom n (tr.take k) ≤ m + 1 := by
  induction tr with
  | nil =>
    intro n h hn k
    simpa [nPagesFrom] using hn
  | cons e tr ih =>
    intro n h hn k
    cases k with
    | zero => simpa [nPagesFrom] using hn
    | succ k =>
      cases e with
      | claim =>
        rw [validFrom] at h
        simp only [Bool.and_eq_true] at h
        have hle : n ≤ m := by
          have hc := h.1
          unfold claimAllowed at hc
          simp only [Bool.or_eq_true, beq_iff_eq, decide_eq_true_eq] at hc
          rcases hc with h0 | hle
          · omega
          · exact hle
        simpa [List.take_succ_cons, nPagesFrom, slotStep] using
          ih (n + 1) h.2 (by omega) k
      | finish =>
        rw [validFrom] at h
        simp only [Bool.and_eq_true, decide_eq_true_eq] at h
        simpa [List.take_succ_cons, nPagesFrom, slotStep] using
          ih (n - 1) h.2 (by omega) k

theorem validFrom_append_claim (m : Nat) (hm : 1 ≤ m) (tr : List SlotEvent) :
    ∀ (n : Nat), validFrom (some m) n (tr ++ [SlotEvent.claim]) = true →
      nPagesFrom n tr ≤ m := by
  induction tr with
  | nil =>
    intro n h
    rw [List.nil_append, validFrom] at h
    simp only [Bool.and_eq_true] at h
    have hc := h.1
    unfold claimAllowed at hc
    simp only [Bool.or_eq_true, beq_iff_eq, decide_eq_true_eq] at hc
    rcases hc with h0 | hle
    · omega
    · simpa [nPagesFrom] using hle
  | cons e tr ih =>
    intro n h
    cases e with
    | claim =>
      rw [List.cons_append, validFrom] at h
      simp only [Bool.and_eq_true] at h
      simpa [nPagesFrom, slotStep] using ih (n + 1) h.2
    | finish =>
      rw [List.cons_append, validFrom] at h
      simp only [Bool.and_eq_true] at h
      simpa [nPagesFrom, slotStep] using ih (n - 1) h.2

/-- C8 counterexample: with maxConcurrency 1 the concurrency discipline
of the controller admits two claims with no finish between them — two
simultaneously open extraction pages — exceeding the claimed bound m. -/
theorem concurrency_bound_counterexample :
    validTrace (some 1) [SlotEvent.claim, SlotEvent.claim] = true ∧
    nPagesAfter [SlotEvent.claim, SlotEvent.claim] = 2 ∧
    ¬(nPagesAfter [SlotEvent.claim, SlotEvent.claim] ≤ 1) := by decide

/-- C8 amended: for a truthy maxConcurrency m the number of
simultaneously open extraction pages never exceeds m + 1 at any point
of a valid run, and a claim is only admissible while the count is at
most m — the poll loop blocks while the count exceeds m and a slot must
free before further work is claimed.  (A maxConcurrency of 0 is falsy
in the source and disables the wait entirely.) -/
theorem concurrency_bound_plus_one :
    (∀ (m : Nat) (tr : List SlotEvent), 1 ≤ m → validTrace (some m) tr = true →
      ∀ k, nPagesAfter (tr.take k) ≤ m + 1) ∧
    (∀ (m : Nat) (tr : List SlotEvent), 1 ≤ m →
      validTrace (some m) (tr ++ [SlotEvent.claim]) = true → nPagesAfter tr ≤ m) := by
  constructor
  · intro m tr hm h k
    exact validFrom_take_bound m hm tr 0 h (by omega) k
  · intro m tr hm h
    exact validFrom_append_claim m hm tr 0 h

/-- C8 amended witness: the bound applied to the two-claim trace under
maxConcurrency 1. -/
theorem concurrency_bound_plus_one_witness :
    nPagesAfter (List.take 2 [SlotEvent.claim, SlotEvent.claim]) ≤ 1 + 1 :=
  concurrency_bound_plus_one.1 1 [SlotEvent.claim, SlotEvent.claim]
    (by decide) (by decide) 2

end Extractor
